import Mathlib

/-!
Verification development for the google-noculars repository.

Two parts of the system are formalised here:

* the pipeline orchestration engine (Execution Engine, Dependency
  Resolver, Run State Store records).  The Python implementation
  (`pipeline_runner.py`, `pipeline_monitor.py`) is not part of the
  source tree, only its shell wrapper `pipeline/run_pipeline.sh` and
  its README are; the engine is therefore modelled from the
  specification and every definition doing so says which missing file
  it stands for.
* the operator CLI wrapper `pipeline/run_pipeline.sh` and the HTTP
  ingestion handler of `server.js`, both translated directly from the
  source.
-/

namespace Noculars

/-- Per-record status of one agent attempt (spec section 3, RunRecord). -/
inductive Status where
  | pending
  | running
  | succeeded
  | failed
  | timedOut
  | skipped
deriving DecidableEq, Repr

/-- Outcome of one invocation of an agent's unit of work
(spec section 6, unit-of-work invocation contract): success,
failure with a message, or forced termination due to timeout. -/
inductive AttemptResult where
  | success
  | failure (msg : String)
  | timedOut
deriving DecidableEq, Repr

/-- Modelled from the spec: AgentDescriptor of section 3, the static
registry entry for one agent (the registry lives in the missing
`pipeline_config.json` / `pipeline_runner.py`). -/
structure AgentDescriptor where
  name : String
  dependencies : List String
  timeoutSeconds : Nat
  maxRetries : Nat
  backoffBase : Nat
  backoffFactor : Nat
deriving DecidableEq, Repr

/-- Modelled from the spec: RunRecord of section 3, one record per
agent attempt per pipeline run (persisted by the missing Run State
Store). Timestamps are omitted; delays appear as explicit wait events
in the engine trace instead. -/
structure RunRecord where
  agentName : String
  runId : Nat
  attempt : Nat
  status : Status
  errorMessage : Option String
deriving DecidableEq, Repr

/-- Modelled from the spec: the observable steps of the Execution
Engine of section 4.4 (implemented by the missing
`pipeline_runner.py`).  `start` marks an attempt Running by appending
a RunRecord, `finish` records the attempt's outcome on that record,
`wait` is the backoff delay between attempts, `skip` appends the
Skipped record of dependency-failure propagation. -/
inductive EngineEvent where
  | start (agentName : String) (runId : Nat) (attempt : Nat)
  | finish (agentName : String) (runId : Nat) (result : AttemptResult)
  | wait (agentName : String) (delayMs : Nat)
  | skip (agentName : String) (runId : Nat)
deriving DecidableEq, Repr

/-- Status recorded for an attempt outcome (spec section 4.4:
record Succeeded / Failed / TimedOut from the unit's outcome signal). -/
def resultStatus : AttemptResult → Status
  | .success => .succeeded
  | .failure _ => .failed
  | .timedOut => .timedOut

/-- Error message recorded for an attempt outcome (spec section 3:
errorMessage present iff status is Failed or TimedOut). -/
def resultError : AttemptResult → Option String
  | .success => none
  | .failure m => some m
  | .timedOut => some "timeout"

/-- Modelled from the spec: effect of one engine step on the
append-only RunRecord store (sections 4.2 and 4.4).  A `finish`
updates the Running record of that agent and run to its terminal
outcome. -/
def applyEvent (recs : List RunRecord) : EngineEvent → List RunRecord
  | .start n rid k => recs ++ [⟨n, rid, k, .running, none⟩]
  | .finish n rid res =>
      recs.map (fun r =>
        if r.agentName = n ∧ r.runId = rid ∧ r.status = .running then
          { r with status := resultStatus res, errorMessage := resultError res }
        else r)
  | .wait _ _ => recs
  | .skip n rid => recs ++ [⟨n, rid, 1, .skipped, none⟩]

/-- Fold a list of engine events over the record store. -/
def applyEvents (recs : List RunRecord) : List EngineEvent → List RunRecord
  | [] => recs
  | e :: evs => applyEvents (applyEvent recs e) evs

/-- All intermediate states (instants) of the store along a trace of
engine events, the initial state included. -/
def traceStates (recs : List RunRecord) : List EngineEvent → List (List RunRecord)
  | [] => [recs]
  | e :: evs => recs :: traceStates (applyEvent recs e) evs

/-- Number of RunRecords with status Running for one (agentName, runId)
pair, the quantity bounded by the at-most-one-Running invariant. -/
def runningCount (recs : List RunRecord) (n : String) (rid : Nat) : Nat :=
  recs.countP (fun r => decide (r.agentName = n ∧ r.runId = rid ∧ r.status = Status.running))

/-- Modelled from the spec: retry delay schedule of section 4.4,
`backoffBase * backoffFactor ^ (attempt - 1)`. -/
def backoffDelay (a : AgentDescriptor) (attempt : Nat) : Nat :=
  a.backoffBase * a.backoffFactor ^ (attempt - 1)

/-- Modelled from the spec: the per-agent attempt loop of the
Execution Engine (section 4.4, implemented by the missing
`pipeline_runner.py`).  `k` is the 1-based attempt number, `fuel` the
number of attempts still allowed; on a non-success outcome with
attempts remaining the engine waits the backoff delay and retries. -/
def attemptEvents (work : String → Nat → AttemptResult) (a : AgentDescriptor)
    (rid : Nat) : Nat → Nat → List EngineEvent
  | _, 0 => []
  | k, rem + 1 =>
      .start a.name rid k :: .finish a.name rid (work a.name k) ::
        (match work a.name k with
          | .success => []
          | _ =>
            if rem = 0 then []
            else .wait a.name (backoffDelay a k) :: attemptEvents work a rid (k + 1) rem)

/-- Latest terminal RunRecord of an agent in the store
(spec section 4.2, `latestTerminal`). -/
def isTerminal : Status → Bool
  | .succeeded => true
  | .failed => true
  | .timedOut => true
  | .skipped => true
  | _ => false

/-- Modelled from the spec: `latestTerminal` of the Run State Store
contract (section 4.2). -/
def latestTerminal (recs : List RunRecord) (n : String) : Option RunRecord :=
  (recs.filter (fun r => decide (r.agentName = n) && isTerminal r.status)).getLast?

/-- Terminal status of an agent as recorded in the store. -/
def agentTerminal (recs : List RunRecord) (n : String) : Option Status :=
  (latestTerminal recs n).map RunRecord.status

/-- Modelled from the spec: dependency check of the Dependency
Resolver (section 4.3): every dependency's latest terminal status must
be Succeeded. -/
def depsSatisfied (recs : List RunRecord) (a : AgentDescriptor) : Bool :=
  a.dependencies.all (fun d => decide (agentTerminal recs d = some Status.succeeded))

/-- Modelled from the spec: scheduling of one agent within a run
(sections 4.3 and 4.4): a force flag bypasses the dependency check;
an agent whose dependencies are not satisfied is Skipped without its
unit of work being invoked. -/
def agentEvents (work : String → Nat → AttemptResult) (force : Bool) (rid : Nat)
    (recs : List RunRecord) (a : AgentDescriptor) : List EngineEvent :=
  if force || depsSatisfied recs a then attemptEvents work a rid 1 a.maxRetries
  else [.skip a.name rid]

/-- Modelled from the spec: the sequential run-all loop of the
Execution Engine (sections 4.4 and 5) over the agents in registry
declaration order, threading the record store. -/
def runAllFrom (work : String → Nat → AttemptResult) (force : Bool) (rid : Nat) :
    List AgentDescriptor → List RunRecord → List EngineEvent
  | [], _ => []
  | a :: rest, recs =>
      agentEvents work force rid recs a ++
        runAllFrom work force rid rest (applyEvents recs (agentEvents work force rid recs a))

/-- Modelled from the spec: a full `run-all` pipeline execution from
an empty store for one runId. -/
def runAll (work : String → Nat → AttemptResult) (force : Bool) (rid : Nat)
    (agents : List AgentDescriptor) : List EngineEvent :=
  runAllFrom work force rid agents []

/-- Final record store of a `run-all` execution. -/
def runAllRecords (work : String → Nat → AttemptResult) (force : Bool) (rid : Nat)
    (agents : List AgentDescriptor) : List RunRecord :=
  applyEvents [] (runAll work force rid agents)

/-- Largest attempt number recorded for an agent (used on resume:
aborted attempts count toward the attempt sequence, section 4.4). -/
def maxAttempt (recs : List RunRecord) (n : String) : Nat :=
  ((recs.filter (fun r => decide (r.agentName = n))).map RunRecord.attempt).foldr max 0

/-- Modelled from the spec: resume-after-crash step one (section 4.4):
every lingering Running record of the resumed runId is treated as an
aborted attempt and closed out. -/
def abortLingering (recs : List RunRecord) (rid : Nat) : List EngineEvent :=
  (recs.filter (fun r => decide (r.runId = rid ∧ r.status = Status.running))).map
    (fun r => .finish r.agentName rid (.failure "aborted by crash"))

/-- Modelled from the spec: resume scheduling for one agent
(section 4.4): a terminal-successful agent is never restarted; an
eligible agent continues its attempt sequence from the attempts
already recorded. -/
def resumeAgentEvents (work : String → Nat → AttemptResult) (force : Bool) (rid : Nat)
    (recs : List RunRecord) (a : AgentDescriptor) : List EngineEvent :=
  if agentTerminal recs a.name = some Status.succeeded then []
  else if force || depsSatisfied recs a then
    attemptEvents work a rid (maxAttempt recs a.name + 1) (a.maxRetries - maxAttempt recs a.name)
  else [.skip a.name rid]

/-- Modelled from the spec: the sequential resume loop over the agents
in declaration order. -/
def resumeFrom (work : String → Nat → AttemptResult) (force : Bool) (rid : Nat) :
    List AgentDescriptor → List RunRecord → List EngineEvent
  | [], _ => []
  | a :: rest, recs =>
      resumeAgentEvents work force rid recs a ++
        resumeFrom work force rid rest (applyEvents recs (resumeAgentEvents work force rid recs a))

/-- Modelled from the spec: resume-after-crash of a run (section 4.4):
close lingering Running records, then continue from the first agent
not already terminal-successful. -/
def resumeRun (work : String → Nat → AttemptResult) (force : Bool) (rid : Nat)
    (agents : List AgentDescriptor) (recs : List RunRecord) : List EngineEvent :=
  abortLingering recs rid ++
    resumeFrom work force rid agents (applyEvents recs (abortLingering recs rid))

/-- Modelled from the spec: the deployed 4-agent linear chain
(spec section 8 and pipeline/README.md execution order); timeout and
retry policy values stand for the missing `pipeline_config.json`,
with the `maxRetries = 3` policy the spec's properties use. -/
def mkAgent (n : String) (deps : List String) : AgentDescriptor :=
  ⟨n, deps, 300, 3, 60, 2⟩

/-- First chain agent, analyzes mouse tracking data. -/
def patternRecognitionAgent : AgentDescriptor :=
  mkAgent "pattern_recognition" []

/-- Second chain agent, depends on pattern recognition. -/
def businessIntelligenceAgent : AgentDescriptor :=
  mkAgent "business_intelligence" ["pattern_recognition"]

/-- Third chain agent, depends on business intelligence. -/
def abTestingAgent : AgentDescriptor :=
  mkAgent "ab_testing" ["business_intelligence"]

/-- Fourth chain agent, depends on A/B testing. -/
def insightsEngineAgent : AgentDescriptor :=
  mkAgent "insights_engine" ["ab_testing"]

/-- Modelled from the spec: the Agent Descriptor Registry in
declaration order (section 4.1). -/
def registry : List AgentDescriptor :=
  [patternRecognitionAgent, businessIntelligenceAgent, abTestingAgent, insightsEngineAgent]

/-! ### Pipeline-level outcome

`overallStatus` is modelled from the spec (section 4.4, pipeline-level
outcome): the implementation computing it lives in the missing
`pipeline_runner.py`. -/

/-- Overall status of one PipelineRun (spec section 3). -/
inductive OverallStatus where
  | running
  | succeeded
  | partlyFailed
  | failed
deriving DecidableEq, Repr

/-- Modelled from the spec: pipeline-level outcome of a completed run
(section 4.4): Succeeded when every agent is terminal-Succeeded,
PartiallyFailed (constructor `partlyFailed`) when some but not all
succeeded, Failed when no agent succeeded. -/
def overallStatus (recs : List RunRecord) (agents : List AgentDescriptor) : OverallStatus :=
  if agents.all (fun a => decide (agentTerminal recs a.name = some Status.succeeded)) then
    .succeeded
  else if agents.any (fun a => decide (agentTerminal recs a.name = some Status.succeeded)) then
    .partlyFailed
  else .failed

/-! ### The operator CLI wrapper, from `pipeline/run_pipeline.sh`

The definitions below are translated from the source of
`run_pipeline.sh`: the argument parsing loop (lines 184-216), the
pre-flight checks (`check_venv`, `check_requirements`), and the
command dispatch (lines 237-261).  A `--agent`, `--config` or
`--interval` at the very end of the argument list makes the script's
`shift 2` fail, which under `set -e` aborts the script; this is the
`.error` case of the missing-value branches. -/

/-- Parser state of the argument loop of `run_pipeline.sh`
(variables COMMAND, AGENT_NAME, FORCE, CONFIG_FILE, JSON_OUTPUT,
MONITOR_INTERVAL with their defaults from lines 16 and 178-182). -/
structure ParseState where
  command : String := ""
  agentName : String := ""
  force : Bool := false
  configFile : String := "pipeline_config.json"
  jsonOutput : Bool := false
  monitorInterval : String := ""
deriving DecidableEq, Repr

/-- The command words of the first case pattern of the parsing loop
(`run_pipeline.sh` line 186). -/
def commandTokens : List String :=
  ["run-all", "run-agent", "status", "monitor", "health-check", "test", "help"]

/-- The argument parsing loop of `run_pipeline.sh` (lines 184-216):
command words set COMMAND, value flags consume the following token,
boolean flags set their variable, and any other token is rejected
with an `Unknown option` error. -/
def parseArgs : List String → ParseState → Except String ParseState
  | [], s => .ok s
  | arg :: rest, s =>
      if arg ∈ commandTokens then parseArgs rest { s with command := arg }
      else if arg = "--agent" then
        match rest with
        | v :: rest' => parseArgs rest' { s with agentName := v }
        | [] => .error "shift count out of range"
      else if arg = "--force" then parseArgs rest { s with force := true }
      else if arg = "--config" then
        match rest with
        | v :: rest' => parseArgs rest' { s with configFile := v }
        | [] => .error "shift count out of range"
      else if arg = "--json" then parseArgs rest { s with jsonOutput := true }
      else if arg = "--interval" then
        match rest with
        | v :: rest' => parseArgs rest' { s with monitorInterval := v }
        | [] => .error "shift count out of range"
      else .error ("Unknown option: " ++ arg)

/-- Modelled from the spec: exit code of the missing
`pipeline_runner.py` for a full pipeline run (section 6: exit code 0
on full success, non-zero otherwise). -/
def runnerExitCode (work : String → Nat → AttemptResult) (force : Bool) (rid : Nat) : Nat :=
  if overallStatus (runAllRecords work force rid registry) registry = .succeeded then 0 else 1

/-- Modelled from the spec: exit code of the missing
`pipeline_runner.py --agent NAME` single-agent invocation
(sections 4.4 and 4.6): the named agent follows the per-attempt
procedure, dependencies checked unless forced. -/
def runAgentExitCode (work : String → Nat → AttemptResult) (force : Bool) (rid : Nat)
    (name : String) : Nat :=
  match registry.find? (fun a => decide (a.name = name)) with
  | none => 1
  | some a =>
      if force || depsSatisfied [] a then
        match agentTerminal (applyEvents [] (attemptEvents work a rid 1 a.maxRetries)) a.name with
        | some .succeeded => 0
        | _ => 1
      else 0

/-- Outcome of one invocation of `run_pipeline.sh`: the process exit
code, whether the orchestration engine `pipeline_runner.py` was
invoked, and the diagnostic lines printed. -/
structure ScriptOutcome where
  exitCode : Nat
  runnerInvoked : Bool
  outputLines : List String
deriving DecidableEq, Repr

/-- The error message of `run_agent` when AGENT_NAME is empty
(`run_pipeline.sh` lines 117-121). -/
def missingAgentLines : List String :=
  ["[ERROR] Agent name required. Use --agent option",
   "Available agents: pattern_recognition, business_intelligence, ab_testing, insights_engine"]

/-- Top-level control flow of `run_pipeline.sh` (lines 178-261):
parse the arguments, show usage on no command or `help`, run the
pre-flight checks (`check_venv` line 37, `check_requirements`
line 46), then dispatch on COMMAND.  The three environment flags say
whether the python venv, `pipeline_runner.py` and the service account
key exist.  Monitoring and status subcommands delegate to the missing
python tools; only whether `pipeline_runner.py` is spawned is tracked
for them. -/
def scriptRun (work : String → Nat → AttemptResult) (rid : Nat)
    (venvExists runnerFileExists keyFileExists : Bool) (args : List String) : ScriptOutcome :=
  match parseArgs args {} with
  | .error e => ⟨1, false, ["[ERROR] " ++ e]⟩
  | .ok s =>
      if s.command = "" then ⟨0, false, ["usage"]⟩
      else if s.command = "help" then ⟨0, false, ["usage"]⟩
      else if ¬venvExists then ⟨1, false, ["[ERROR] Python virtual environment not found"]⟩
      else if ¬(runnerFileExists && keyFileExists) then
        ⟨1, false, ["[ERROR] Missing required files:"]⟩
      else if s.command = "run-all" then
        if runnerExitCode work s.force rid = 0 then
          ⟨0, true, ["[SUCCESS] Pipeline completed successfully"]⟩
        else ⟨runnerExitCode work s.force rid, true, ["[ERROR] Pipeline execution failed"]⟩
      else if s.command = "run-agent" then
        if s.agentName = "" then ⟨1, false, missingAgentLines⟩
        else if runAgentExitCode work s.force rid s.agentName = 0 then
          ⟨0, true, ["[SUCCESS] Agent " ++ s.agentName ++ " completed successfully"]⟩
        else
          ⟨runAgentExitCode work s.force rid s.agentName, true,
           ["[ERROR] Agent " ++ s.agentName ++ " execution failed"]⟩
      else if s.command = "status" then ⟨0, true, ["status"]⟩
      else if s.command = "monitor" then ⟨0, false, ["monitor"]⟩
      else if s.command = "health-check" then ⟨0, false, ["health-check"]⟩
      else ⟨0, false, ["test"]⟩

/-! ### The ingestion API handler, from `server.js`

Translated from the source of `server.js`: the API key to tenant
mapping (lines 31-46), the `POST /api/track` handler (lines 64-119)
and `insertEventsToBigQuery` (lines 122-141).  JavaScript field
absence is an `Option`; the `events` field of the request body is a
missing / non-array / array three-way value matching the
`!events || !Array.isArray(events) || events.length === 0` check. -/

/-- One element of the `events` array of a tracking request, with the
fields the handler reads (`server.js` lines 80-100). -/
structure TrackEvent where
  sessionId : Option String
  pageUrl : Option String
  userAgent : Option String
  viewportWidth : Option Int
  viewportHeight : Option Int
  eventType : Option String
  timestamp : Option String
  xCoordinate : Option Int
  yCoordinate : Option Int
  scrollX : Option Int
  scrollY : Option Int
  elementTag : Option String
  elementId : Option String
  elementClass : Option String
  elementText : Option String
  pageTitle : Option String
  referrer : Option String
deriving DecidableEq, Repr

/-- The JSON value found at the `events` key of the request body:
absent (or otherwise falsy), present but not an array, or an array of
event objects. -/
inductive EventsField where
  | missing
  | nonArray
  | arr (events : List TrackEvent)
deriving DecidableEq, Repr

/-- Request body of `POST /api/track` (`server.js` line 66). -/
structure TrackBody where
  events : EventsField
  batchTimestamp : Option String
  sessionId : Option String
  apiKey : Option String
deriving DecidableEq, Repr

/-- The demo API key to tenant mapping of `server.js` lines 31-36. -/
def API_KEY_TO_TENANT : List (String × String) :=
  [("demo-123", "tenant_demo_company"),
   ("test-456", "tenant_test_startup"),
   ("hackathon-789", "tenant_hackathon_example"),
   ("demo-default", "tenant_default")]

/-- Property names every plain JavaScript object inherits from
Object.prototype.  `API_KEY_TO_TENANT` of `server.js` is an object
literal, so `API_KEY_TO_TENANT[k]` for such a `k` yields the inherited
member (a function, or the prototype object for `__proto__`), which is
truthy. -/
def objectPrototypeMembers : List String :=
  ["constructor", "hasOwnProperty", "isPrototypeOf", "propertyIsEnumerable",
   "toLocaleString", "toString", "valueOf", "__proto__",
   "__defineGetter__", "__defineSetter__", "__lookupGetter__", "__lookupSetter__"]

/-- The JavaScript value `getTenantIdFromApiKey` of `server.js`
returns: a tenant string, or — when the apiKey names an inherited
Object.prototype member — that member itself, a non-string value. -/
inductive TenantValue where
  | str (s : String)
  | inherited (member : String)
deriving DecidableEq, Repr

/-- `getTenantIdFromApiKey` of `server.js` lines 39-46.
`API_KEY_TO_TENANT[apiKey]` is bracket access on a plain object
literal and consults the prototype chain: one of the four own demo
keys yields its tenant string; a key naming an inherited
Object.prototype member yields that member, which is truthy, so the
`!tenantId` guard does not fire and the member itself is returned;
only otherwise is the lookup undefined and the default tenant
returned. -/
def getTenantIdFromApiKey (apiKey : Option String) : TenantValue :=
  match apiKey with
  | none => .str "tenant_default"
  | some k =>
      match API_KEY_TO_TENANT.lookup k with
      | some t => .str t
      | none =>
          if k ∈ objectPrototypeMembers then .inherited k
          else .str "tenant_default"

/-- One row of the `mouse_tracking` BigQuery table as built by the
transform of `server.js` lines 80-100. -/
structure MouseRow where
  session_id : Option String
  page_url : Option String
  user_agent : Option String
  viewport_width : Option Int
  viewport_height : Option Int
  event_type : Option String
  timestamp : Option String
  x_coordinate : Option Int
  y_coordinate : Option Int
  scroll_x : Option Int
  scroll_y : Option Int
  element_tag : Option String
  element_id : Option String
  element_class : Option String
  element_text : Option String
  page_title : Option String
  referrer : Option String
  tenant_id : TenantValue
  created_at : String
deriving DecidableEq, Repr

/-- The per-event transform of `server.js` lines 80-100:
`event.sessionId || sessionId` falls back to the batch session id
whenever `event.sessionId` is falsy — absent or the empty string —
and `tenant_id` is set from the resolved tenant value. -/
def transformEvent (tenantId : TenantValue) (bodySessionId : Option String) (now : String)
    (e : TrackEvent) : MouseRow :=
  { session_id := match e.sessionId with
      | some s => if s = "" then bodySessionId else some s
      | none => bodySessionId
    page_url := e.pageUrl
    user_agent := e.userAgent
    viewport_width := e.viewportWidth
    viewport_height := e.viewportHeight
    event_type := e.eventType
    timestamp := e.timestamp
    x_coordinate := e.xCoordinate
    y_coordinate := e.yCoordinate
    scroll_x := e.scrollX
    scroll_y := e.scrollY
    element_tag := e.elementTag
    element_id := e.elementId
    element_class := e.elementClass
    element_text := e.elementText
    page_title := e.pageTitle
    referrer := e.referrer
    tenant_id := tenantId
    created_at := now }

/-- HTTP response of the `/api/track` handler together with the rows
handed to `insertEventsToBigQuery`; `insertedRows` is `none` when no
BigQuery insert was attempted at all. -/
structure TrackResult where
  status : Nat
  success : Bool
  eventsProcessed : Option Nat
  errorField : Option String
  insertedRows : Option (List MouseRow)
deriving DecidableEq, Repr

/-- The `POST /api/track` handler of `server.js` lines 64-119.  The
body is rejected with 400 before any insert when `events` is falsy,
not an array, or empty; otherwise the transformed rows are inserted
and a success payload echoes the number of submitted events.  The
`insertOutcome` argument is the result of the BigQuery insert call;
its failure propagates to the catch-all 500 response. -/
def handleTrack (body : TrackBody) (now : String)
    (insertOutcome : Except String Unit) : TrackResult :=
  match body.events with
  | .missing => ⟨400, false, none, some "Invalid request: events array is required", none⟩
  | .nonArray => ⟨400, false, none, some "Invalid request: events array is required", none⟩
  | .arr evs =>
      if evs.length = 0 then
        ⟨400, false, none, some "Invalid request: events array is required", none⟩
      else
        let tenantId := getTenantIdFromApiKey body.apiKey
        let rows := evs.map (transformEvent tenantId body.sessionId now)
        match insertOutcome with
        | .ok _ => ⟨200, true, some evs.length, none, some rows⟩
        | .error m => ⟨500, false, none, some m, some rows⟩

/-! ### The at-most-one-Running invariant

Count bookkeeping for each kind of engine event, then a well-formedness
predicate on event traces under which the invariant is preserved. -/

theorem applyEvent_start (recs : List RunRecord) (n : String) (rid k : Nat) :
    applyEvent recs (.start n rid k) = recs ++ [⟨n, rid, k, .running, none⟩] := rfl

theorem applyEvent_finish (recs : List RunRecord) (n : String) (rid : Nat)
    (res : AttemptResult) :
    applyEvent recs (.finish n rid res) =
      recs.map (fun r =>
        if r.agentName = n ∧ r.runId = rid ∧ r.status = .running then
          { r with status := resultStatus res, errorMessage := resultError res }
        else r) := rfl

theorem applyEvent_skip (recs : List RunRecord) (n : String) (rid : Nat) :
    applyEvent recs (.skip n rid) = recs ++ [⟨n, rid, 1, .skipped, none⟩] := rfl

theorem runningCount_wait (recs : List RunRecord) (n : String) (d : Nat)
    (n' : String) (rid' : Nat) :
    runningCount (applyEvent recs (.wait n d)) n' rid' = runningCount recs n' rid' := rfl

theorem runningCount_skip (recs : List RunRecord) (n : String) (rid : Nat)
    (n' : String) (rid' : Nat) :
    runningCount (applyEvent recs (.skip n rid)) n' rid' = runningCount recs n' rid' := by
  simp [applyEvent, runningCount, List.countP_append, List.countP_singleton]

theorem runningCount_start_self (recs : List RunRecord) (n : String) (rid k : Nat) :
    runningCount (applyEvent recs (.start n rid k)) n rid = runningCount recs n rid + 1 := by
  simp [applyEvent, runningCount, List.countP_append, List.countP_singleton]

theorem runningCount_start_other (recs : List RunRecord) (n : String) (rid k : Nat)
    (n' : String) (rid' : Nat) (h : ¬(n' = n ∧ rid' = rid)) :
    runningCount (applyEvent recs (.start n rid k)) n' rid' = runningCount recs n' rid' := by
  rw [applyEvent_start, runningCount, runningCount, List.countP_append]
  have hz : List.countP
      (fun r => decide (r.agentName = n' ∧ r.runId = rid' ∧ r.status = Status.running))
      [(⟨n, rid, k, .running, none⟩ : RunRecord)] = 0 := by
    rw [List.countP_singleton]
    simp only [decide_eq_true_eq]
    rw [if_neg]
    rintro ⟨h1, h2, -⟩
    exact h ⟨h1.symm, h2.symm⟩
  rw [hz, Nat.add_zero]

theorem resultStatus_ne_running (res : AttemptResult) : resultStatus res ≠ Status.running := by
  cases res <;> simp [resultStatus]

theorem runningCount_finish_self (recs : List RunRecord) (n : String) (rid : Nat)
    (res : AttemptResult) :
    runningCount (applyEvent recs (.finish n rid res)) n rid = 0 := by
  simp only [applyEvent, runningCount, List.countP_map]
  rw [List.countP_eq_zero]
  intro r _
  by_cases hc : r.agentName = n ∧ r.runId = rid ∧ r.status = Status.running
  · simp [Function.comp, hc, resultStatus_ne_running]
  · simp only [Function.comp, if_neg hc, decide_eq_true_eq]
    exact hc

theorem runningCount_finish_other (recs : List RunRecord) (n : String) (rid : Nat)
    (res : AttemptResult) (n' : String) (rid' : Nat) (h : ¬(n' = n ∧ rid' = rid)) :
    runningCount (applyEvent recs (.finish n rid res)) n' rid' = runningCount recs n' rid' := by
  simp only [applyEvent, runningCount, List.countP_map]
  apply List.countP_congr
  intro r _
  by_cases hc : r.agentName = n ∧ r.runId = rid ∧ r.status = Status.running
  · simp only [Function.comp, if_pos hc, decide_eq_true_eq]
    constructor
    · rintro ⟨-, -, habs⟩
      exact absurd habs (resultStatus_ne_running res)
    · rintro ⟨h1, h2, -⟩
      exact absurd ⟨h1.symm ▸ hc.1, h2.symm ▸ hc.2.1⟩ h
  · simp [Function.comp, if_neg hc]

theorem runningCount_finish_le (recs : List RunRecord) (n : String) (rid : Nat)
    (res : AttemptResult) (n' : String) (rid' : Nat) :
    runningCount (applyEvent recs (.finish n rid res)) n' rid' ≤ runningCount recs n' rid' := by
  by_cases h : n' = n ∧ rid' = rid
  · rcases h with ⟨rfl, rfl⟩
    rw [runningCount_finish_self]
    exact Nat.zero_le _
  · rw [runningCount_finish_other recs n rid res n' rid' h]

/-- Well-formed engine traces for a run `rid`: a Running record is
only ever opened by a `start` that its own `finish` immediately
follows, all within the run being executed; lone `finish`, `wait` and
`skip` events never open a Running record. -/
inductive BalancedAt (rid : Nat) : List EngineEvent → Prop where
  | nil : BalancedAt rid []
  | skip {n rid' evs} : BalancedAt rid evs → BalancedAt rid (.skip n rid' :: evs)
  | wait {n d evs} : BalancedAt rid evs → BalancedAt rid (.wait n d :: evs)
  | fin {n rid' res evs} : BalancedAt rid evs → BalancedAt rid (.finish n rid' res :: evs)
  | pair {n k res evs} : BalancedAt rid evs →
      BalancedAt rid (.start n rid k :: .finish n rid res :: evs)

theorem BalancedAt.append {rid : Nat} {evs₁ evs₂ : List EngineEvent}
    (h₁ : BalancedAt rid evs₁) (h₂ : BalancedAt rid evs₂) :
    BalancedAt rid (evs₁ ++ evs₂) := by
  induction h₁ with
  | nil => exact h₂
  | skip _ ih => exact .skip ih
  | wait _ ih => exact .wait ih
  | fin _ ih => exact .fin ih
  | pair _ ih => exact .pair ih

theorem balancedAt_attemptEvents (work : String → Nat → AttemptResult)
    (a : AgentDescriptor) (rid : Nat) (k fuel : Nat) :
    BalancedAt rid (attemptEvents work a rid k fuel) := by
  induction fuel generalizing k with
  | zero => exact .nil
  | succ rem ih =>
      rw [attemptEvents]
      cases hres : work a.name k with
      | success => exact .pair .nil
      | failure m =>
          by_cases hrem : rem = 0
          · simp only [hrem, if_pos rfl]
            exact .pair .nil
          · simp only [if_neg hrem]
            exact .pair (.wait (ih (k + 1)))
      | timedOut =>
          by_cases hrem : rem = 0
          · simp only [hrem, if_pos rfl]
            exact .pair .nil
          · simp only [if_neg hrem]
            exact .pair (.wait (ih (k + 1)))

theorem balancedAt_agentEvents (work : String → Nat → AttemptResult) (force : Bool)
    (rid : Nat) (recs : List RunRecord) (a : AgentDescriptor) :
    BalancedAt rid (agentEvents work force rid recs a) := by
  rw [agentEvents]
  by_cases h : (force || depsSatisfied recs a) = true
  · rw [if_pos h]; exact balancedAt_attemptEvents work a rid 1 a.maxRetries
  · rw [if_neg h]; exact .skip .nil

theorem balancedAt_runAllFrom (work : String → Nat → AttemptResult) (force : Bool)
    (rid : Nat) (agents : List AgentDescriptor) (recs : List RunRecord) :
    BalancedAt rid (runAllFrom work force rid agents recs) := by
  induction agents generalizing recs with
  | nil => exact .nil
  | cons a rest ih =>
      exact (balancedAt_agentEvents work force rid recs a).append (ih _)

theorem balancedAt_resumeAgentEvents (work : String → Nat → AttemptResult) (force : Bool)
    (rid : Nat) (recs : List RunRecord) (a : AgentDescriptor) :
    BalancedAt rid (resumeAgentEvents work force rid recs a) := by
  rw [resumeAgentEvents]
  by_cases h1 : agentTerminal recs a.name = some Status.succeeded
  · rw [if_pos h1]; exact .nil
  · rw [if_neg h1]
    by_cases h2 : (force || depsSatisfied recs a) = true
    · rw [if_pos h2]; exact balancedAt_attemptEvents work a rid _ _
    · rw [if_neg h2]; exact .skip .nil

theorem balancedAt_resumeFrom (work : String → Nat → AttemptResult) (force : Bool)
    (rid : Nat) (agents : List AgentDescriptor) (recs : List RunRecord) :
    BalancedAt rid (resumeFrom work force rid agents recs) := by
  induction agents generalizing recs with
  | nil => exact .nil
  | cons a rest ih =>
      exact (balancedAt_resumeAgentEvents work force rid recs a).append (ih _)

theorem applyEvents_append (recs : List RunRecord) (l₁ l₂ : List EngineEvent) :
    applyEvents recs (l₁ ++ l₂) = applyEvents (applyEvents recs l₁) l₂ := by
  induction l₁ generalizing recs with
  | nil => rfl
  | cons e evs ih => rw [List.cons_append]; exact ih (applyEvent recs e)

theorem mem_traceStates_append (recs : List RunRecord) (l₁ l₂ : List EngineEvent)
    (s : List RunRecord) (hs : s ∈ traceStates recs (l₁ ++ l₂)) :
    s ∈ traceStates recs l₁ ∨ s ∈ traceStates (applyEvents recs l₁) l₂ := by
  induction l₁ generalizing recs with
  | nil => exact Or.inr hs
  | cons e evs ih =>
      rw [List.cons_append, traceStates] at hs
      rcases List.mem_cons.mp hs with rfl | hmem
      · exact Or.inl (List.mem_cons.mpr (Or.inl rfl))
      · rcases ih (applyEvent recs e) hmem with h' | h'
        · exact Or.inl (List.mem_cons.mpr (Or.inr h'))
        · exact Or.inr h'

/-- Every instant along a well-formed engine trace has at most one
Running record per (agentName, runId) pair, provided the starting
store does and has no Running record for the run being executed; the
final store has all Running records of that run closed again. -/
theorem balanced_invariant {rid : Nat} {evs : List EngineEvent} (hb : BalancedAt rid evs) :
    ∀ recs : List RunRecord,
      (∀ n r', runningCount recs n r' ≤ 1) →
      (∀ n, runningCount recs n rid = 0) →
      (∀ s ∈ traceStates recs evs, ∀ n r', runningCount s n r' ≤ 1) ∧
      (∀ n r', runningCount (applyEvents recs evs) n r' ≤ 1) ∧
      (∀ n, runningCount (applyEvents recs evs) n rid = 0) := by
  induction hb with
  | nil =>
      intro recs h1 h2
      refine ⟨?_, h1, h2⟩
      intro s hs
      have hss : s = recs := List.mem_singleton.mp hs
      subst hss
      exact h1
  | @skip n rid' rest hrest ih =>
      intro recs h1 h2
      have e1 : ∀ n'' r', runningCount (applyEvent recs (.skip n rid')) n'' r' ≤ 1 := by
        intro n'' r'
        rw [runningCount_skip]
        exact h1 n'' r'
      have e2 : ∀ n'', runningCount (applyEvent recs (.skip n rid')) n'' rid = 0 := by
        intro n''
        rw [runningCount_skip]
        exact h2 n''
      obtain ⟨ihs, ihf, ihz⟩ := ih (applyEvent recs (.skip n rid')) e1 e2
      refine ⟨?_, ihf, ihz⟩
      intro s hs
      rw [traceStates] at hs
      rcases List.mem_cons.mp hs with rfl | hmem
      · exact h1
      · exact ihs s hmem
  | @wait n d rest hrest ih =>
      intro recs h1 h2
      obtain ⟨ihs, ihf, ihz⟩ := ih (applyEvent recs (.wait n d)) h1 h2
      refine ⟨?_, ihf, ihz⟩
      intro s hs
      rw [traceStates] at hs
      rcases List.mem_cons.mp hs with rfl | hmem
      · exact h1
      · exact ihs s hmem
  | @fin n rid' res rest hrest ih =>
      intro recs h1 h2
      have e1 : ∀ n'' r', runningCount (applyEvent recs (.finish n rid' res)) n'' r' ≤ 1 := by
        intro n'' r'
        exact le_trans (runningCount_finish_le recs n rid' res n'' r') (h1 n'' r')
      have e2 : ∀ n'', runningCount (applyEvent recs (.finish n rid' res)) n'' rid = 0 := by
        intro n''
        have := le_trans (runningCount_finish_le recs n rid' res n'' rid)
          (Nat.le_of_eq (h2 n''))
        omega
      obtain ⟨ihs, ihf, ihz⟩ := ih (applyEvent recs (.finish n rid' res)) e1 e2
      refine ⟨?_, ihf, ihz⟩
      intro s hs
      rw [traceStates] at hs
      rcases List.mem_cons.mp hs with rfl | hmem
      · exact h1
      · exact ihs s hmem
  | @pair n k res rest hrest ih =>
      intro recs h1 h2
      have h1' : ∀ n'' r', runningCount (applyEvent recs (.start n rid k)) n'' r' ≤ 1 := by
        intro n'' r'
        by_cases hc : n'' = n ∧ r' = rid
        · rcases hc with ⟨rfl, rfl⟩
          rw [runningCount_start_self, h2 n'']
        · rw [runningCount_start_other recs n rid k n'' r' hc]
          exact h1 n'' r'
      have h1'' : ∀ n'' r',
          runningCount (applyEvent (applyEvent recs (.start n rid k)) (.finish n rid res)) n'' r' ≤ 1 := by
        intro n'' r'
        by_cases hc : n'' = n ∧ r' = rid
        · rcases hc with ⟨rfl, rfl⟩
          rw [runningCount_finish_self]
          exact Nat.zero_le 1
        · rw [runningCount_finish_other _ n rid res n'' r' hc]
          exact h1' n'' r'
      have h2'' : ∀ n'',
          runningCount (applyEvent (applyEvent recs (.start n rid k)) (.finish n rid res)) n'' rid = 0 := by
        intro n''
        by_cases hc : n'' = n
        · subst hc
          rw [runningCount_finish_self]
        · rw [runningCount_finish_other _ n rid res n'' rid (fun hh => hc hh.1)]
          rw [runningCount_start_other recs n rid k n'' rid (fun hh => hc hh.1)]
          exact h2 n''
      obtain ⟨ihs, ihf, ihz⟩ :=
        ih (applyEvent (applyEvent recs (.start n rid k)) (.finish n rid res)) h1'' h2''
      refine ⟨?_, ihf, ihz⟩
      intro s hs
      rw [traceStates, traceStates] at hs
      rcases List.mem_cons.mp hs with rfl | hs'
      · exact h1
      rcases List.mem_cons.mp hs' with rfl | hs''
      · exact h1'
      · exact ihs s hs''

theorem applyEvents_mem_traceStates (recs : List RunRecord) (evs : List EngineEvent) :
    applyEvents recs evs ∈ traceStates recs evs := by
  induction evs generalizing recs with
  | nil => exact List.mem_singleton.mpr rfl
  | cons e evs ih => exact List.mem_cons.mpr (Or.inr (ih (applyEvent recs e)))

/-- Event shape test used for the crash-recovery phase: the abort
events of `abortLingering` are all `finish` events. -/
def isFinish : EngineEvent → Bool
  | .finish _ _ _ => true
  | _ => false

theorem finishTrace_le (evs : List EngineEvent) (hf : ∀ e ∈ evs, isFinish e = true) :
    ∀ recs : List RunRecord, ∀ s ∈ traceStates recs evs, ∀ n r',
      runningCount s n r' ≤ runningCount recs n r' := by
  induction evs with
  | nil =>
      intro recs s hs n r'
      have hss : s = recs := List.mem_singleton.mp hs
      subst hss
      exact le_rfl
  | cons e evs ih =>
      intro recs s hs n r'
      rw [traceStates] at hs
      rcases List.mem_cons.mp hs with rfl | hmem
      · exact le_rfl
      · refine le_trans
          (ih (fun e' he' => hf e' (List.mem_cons.mpr (Or.inr he'))) (applyEvent recs e) s hmem n r') ?_
        cases e with
        | finish m rr res => exact runningCount_finish_le recs m rr res n r'
        | start m rr k => exact absurd (hf _ (List.mem_cons.mpr (Or.inl rfl))) (by simp [isFinish])
        | wait m d => exact le_of_eq (runningCount_wait recs m d n r')
        | skip m rr => exact le_of_eq (runningCount_skip recs m rr n r')

theorem finishApply_le (evs : List EngineEvent) (hf : ∀ e ∈ evs, isFinish e = true)
    (recs : List RunRecord) (n : String) (r' : Nat) :
    runningCount (applyEvents recs evs) n r' ≤ runningCount recs n r' :=
  finishTrace_le evs hf recs (applyEvents recs evs) (applyEvents_mem_traceStates recs evs) n r'

/-- One crash-abort event. -/
def abortEv (rid : Nat) (m : String) : EngineEvent :=
  .finish m rid (.failure "aborted by crash")

theorem abortLingering_eq (recs : List RunRecord) (rid : Nat) :
    abortLingering recs rid =
      ((recs.filter (fun r => decide (r.runId = rid ∧ r.status = Status.running))).map
        RunRecord.agentName).map (abortEv rid) := by
  rw [List.map_map]
  rfl

theorem finishNames_clear (rid : Nat) (L : List String) :
    ∀ recs : List RunRecord,
      (∀ r ∈ recs, r.runId = rid → r.status = Status.running → r.agentName ∈ L) →
      ∀ n, runningCount (applyEvents recs (L.map (abortEv rid))) n rid = 0 := by
  induction L with
  | nil =>
      intro recs h n
      rw [List.map_nil]
      rw [show applyEvents recs [] = recs from rfl]
      rw [runningCount, List.countP_eq_zero]
      intro r hr
      simp only [decide_eq_true_eq]
      rintro ⟨-, hrid, hst⟩
      exact absurd (h r hr hrid hst) (List.not_mem_nil _)
  | cons m L ih =>
      intro recs h n
      rw [List.map_cons]
      rw [show applyEvents recs (abortEv rid m :: L.map (abortEv rid)) =
        applyEvents (applyEvent recs (abortEv rid m)) (L.map (abortEv rid)) from rfl]
      apply ih
      intro r hr hrid hst
      rw [show applyEvent recs (abortEv rid m) = applyEvent recs (.finish m rid (.failure "aborted by crash")) from rfl,
        applyEvent_finish] at hr
      rcases List.mem_map.mp hr with ⟨r0, hr0, rfl⟩
      by_cases hc : r0.agentName = m ∧ r0.runId = rid ∧ r0.status = Status.running
      · exfalso
        rw [if_pos hc] at hst
        have hst' : resultStatus (AttemptResult.failure "aborted by crash") = Status.running := hst
        exact absurd hst' (resultStatus_ne_running _)
      · rw [if_neg hc] at hrid hst ⊢
        have hmem := h r0 hr0 hrid hst
        rcases List.mem_cons.mp hmem with heq | hL
        · exact absurd ⟨heq, hrid, hst⟩ hc
        · exact hL

theorem abort_clears (recs0 : List RunRecord) (rid : Nat) (n : String) :
    runningCount (applyEvents recs0 (abortLingering recs0 rid)) n rid = 0 := by
  rw [abortLingering_eq]
  apply finishNames_clear
  intro r hr hrid hst
  exact List.mem_map.mpr
    ⟨r, List.mem_filter.mpr ⟨hr, by simp [hrid, hst]⟩, rfl⟩

theorem abortLingering_all_finish (recs : List RunRecord) (rid : Nat) :
    ∀ e ∈ abortLingering recs rid, isFinish e = true := by
  intro e he
  rw [abortLingering] at he
  rcases List.mem_map.mp he with ⟨r, -, rfl⟩
  rfl

/-- C1: for every pipeline run and every agent, at most one RunRecord
for the pair (agentName, runId) has status Running at any instant.
This holds along every instant of a `run-all` execution, forced or
not, and along every instant of a resumed run whose reloaded store
already satisfied the bound (as any store the engine wrote does). -/
theorem c1_at_most_one_running
    (work : String → Nat → AttemptResult) (agents : List AgentDescriptor)
    (force : Bool) (rid : Nat) (recs0 : List RunRecord)
    (h0 : ∀ n r', runningCount recs0 n r' ≤ 1) :
    (∀ s ∈ traceStates [] (runAll work force rid agents), ∀ n r', runningCount s n r' ≤ 1) ∧
    (∀ s ∈ traceStates recs0 (resumeRun work force rid agents recs0),
      ∀ n r', runningCount s n r' ≤ 1) := by
  constructor
  · have hz : ∀ n r', runningCount ([] : List RunRecord) n r' ≤ 1 := by
      intro n r'
      simp [runningCount]
    have hz0 : ∀ n, runningCount ([] : List RunRecord) n rid = 0 := by
      intro n
      simp [runningCount]
    exact (balanced_invariant (balancedAt_runAllFrom work force rid agents []) [] hz hz0).1
  · intro s hs n r'
    rw [resumeRun] at hs
    rcases mem_traceStates_append recs0 _ _ s hs with h | h
    · exact le_trans
        (finishTrace_le _ (abortLingering_all_finish recs0 rid) recs0 s h n r') (h0 n r')
    · have h1 : ∀ n' rr,
          runningCount (applyEvents recs0 (abortLingering recs0 rid)) n' rr ≤ 1 := by
        intro n' rr
        exact le_trans
          (finishApply_le _ (abortLingering_all_finish recs0 rid) recs0 n' rr) (h0 n' rr)
      have h2 : ∀ n',
          runningCount (applyEvents recs0 (abortLingering recs0 rid)) n' rid = 0 :=
        fun n' => abort_clears recs0 rid n'
      exact (balanced_invariant
        (balancedAt_resumeFrom work force rid agents (applyEvents recs0 (abortLingering recs0 rid)))
        _ h1 h2).1 s h n r'

/-- Witness for C1: the final store of a concrete successful run of
the deployed registry respects the bound for pattern_recognition. -/
theorem c1_at_most_one_running_witness :
    runningCount
      (applyEvents [] (runAll (fun _ _ => AttemptResult.success) false 0 registry))
      "pattern_recognition" 0 ≤ 1 :=
  (c1_at_most_one_running (fun _ _ => AttemptResult.success) registry false 0 []
      (fun n r' => by simp [runningCount])).1
    (applyEvents [] (runAll (fun _ _ => AttemptResult.success) false 0 registry))
    (applyEvents_mem_traceStates [] _) "pattern_recognition" 0

/-! ### Per-agent record structure of a run

`blockRecords` mirrors the records the attempt loop appends for one
agent; frame lemmas show each agent's block touches only its own
records. -/

/-- The records the attempt loop appends for one agent, in order. -/
def blockRecords (work : String → Nat → AttemptResult) (a : AgentDescriptor) (rid : Nat) :
    Nat → Nat → List RunRecord
  | _, 0 => []
  | k, rem + 1 =>
      ⟨a.name, rid, k, resultStatus (work a.name k), resultError (work a.name k)⟩ ::
        (match work a.name k with
          | .success => []
          | _ => if rem = 0 then [] else blockRecords work a rid (k + 1) rem)

/-- The records of one agent in the store, in append order. -/
def recordsFor (recs : List RunRecord) (n : String) : List RunRecord :=
  recs.filter (fun r => decide (r.agentName = n))

/-- The agent a single engine event concerns. -/
def eventAgent : EngineEvent → String
  | .start n _ _ => n
  | .finish n _ _ => n
  | .wait n _ => n
  | .skip n _ => n

/-- No record of agent `n` is currently Running. -/
def NoRunFor (recs : List RunRecord) (n : String) : Prop :=
  ∀ r ∈ recs, r.agentName = n → r.status ≠ Status.running

theorem recordsFor_applyEvent_other (recs : List RunRecord) (e : EngineEvent) (n : String)
    (h : eventAgent e ≠ n) :
    recordsFor (applyEvent recs e) n = recordsFor recs n := by
  cases e with
  | start m rid k =>
      rw [applyEvent_start, recordsFor, recordsFor, List.filter_append]
      have : List.filter (fun r => decide (r.agentName = n)) [(⟨m, rid, k, .running, none⟩ : RunRecord)] = [] := by
        simp only [List.filter_cons, List.filter_nil]
        rw [if_neg]
        simpa using h
      rw [this, List.append_nil]
  | skip m rid =>
      rw [applyEvent_skip, recordsFor, recordsFor, List.filter_append]
      have : List.filter (fun r => decide (r.agentName = n)) [(⟨m, rid, 1, .skipped, none⟩ : RunRecord)] = [] := by
        simp only [List.filter_cons, List.filter_nil]
        rw [if_neg]
        simpa using h
      rw [this, List.append_nil]
  | wait m d => rfl
  | finish m rid res =>
      rw [applyEvent_finish, recordsFor, recordsFor, List.filter_map]
      have hpf : ∀ r ∈ recs,
          ((fun r => decide (r.agentName = n)) ∘
            (fun r => if r.agentName = m ∧ r.runId = rid ∧ r.status = Status.running then
              { r with status := resultStatus res, errorMessage := resultError res }
            else r)) r = (fun r => decide (r.agentName = n)) r := by
        intro r _
        by_cases hc : r.agentName = m ∧ r.runId = rid ∧ r.status = Status.running
        · simp only [Function.comp, if_pos hc]
        · simp only [Function.comp, if_neg hc]
      rw [List.filter_congr hpf]
      have hid : List.map
          (fun r => if r.agentName = m ∧ r.runId = rid ∧ r.status = Status.running then
            { r with status := resultStatus res, errorMessage := resultError res }
          else r)
          (List.filter (fun r => decide (r.agentName = n)) recs) =
          List.map id (List.filter (fun r => decide (r.agentName = n)) recs) := by
        apply List.map_congr_left
        intro r hr
        rw [id_eq, if_neg]
        rintro ⟨h1, -, -⟩
        have hmem := List.mem_filter.mp hr
        simp only [decide_eq_true_eq] at hmem
        exact h (h1 ▸ hmem.2 ▸ rfl)
      rw [hid, List.map_id]

theorem recordsFor_applyEvents_other (recs : List RunRecord) (evs : List EngineEvent)
    (m n : String) (hev : ∀ e ∈ evs, eventAgent e = m) (h : n ≠ m) :
    recordsFor (applyEvents recs evs) n = recordsFor recs n := by
  induction evs generalizing recs with
  | nil => rfl
  | cons e evs ih =>
      rw [show applyEvents recs (e :: evs) = applyEvents (applyEvent recs e) evs from rfl]
      rw [ih (applyEvent recs e) (fun e' he' => hev e' (List.mem_cons.mpr (Or.inr he')))]
      apply recordsFor_applyEvent_other
      rw [hev e (List.mem_cons.mpr (Or.inl rfl))]
      exact fun hh => h hh.symm

theorem eventAgent_attemptEvents (work : String → Nat → AttemptResult)
    (a : AgentDescriptor) (rid : Nat) (k fuel : Nat) :
    ∀ e ∈ attemptEvents work a rid k fuel, eventAgent e = a.name := by
  induction fuel generalizing k with
  | zero => intro e he; exact absurd he (List.not_mem_nil e)
  | succ rem ih =>
      intro e he
      rw [attemptEvents] at he
      rcases List.mem_cons.mp he with rfl | he'
      · rfl
      rcases List.mem_cons.mp he' with rfl | he''
      · rfl
      cases hres : work a.name k with
      | success => rw [hres] at he''; exact absurd he'' (List.not_mem_nil e)
      | failure msg =>
          rw [hres] at he''
          by_cases hrem : rem = 0
          · rw [if_pos hrem] at he''
            exact absurd he'' (List.not_mem_nil e)
          · rw [if_neg hrem] at he''
            rcases List.mem_cons.mp he'' with rfl | he3
            · rfl
            · exact ih (k + 1) e he3
      | timedOut =>
          rw [hres] at he''
          by_cases hrem : rem = 0
          · rw [if_pos hrem] at he''
            exact absurd he'' (List.not_mem_nil e)
          · rw [if_neg hrem] at he''
            rcases List.mem_cons.mp he'' with rfl | he3
            · rfl
            · exact ih (k + 1) e he3

theorem eventAgent_agentEvents (work : String → Nat → AttemptResult) (force : Bool)
    (rid : Nat) (recs : List RunRecord) (a : AgentDescriptor) :
    ∀ e ∈ agentEvents work force rid recs a, eventAgent e = a.name := by
  intro e he
  rw [agentEvents] at he
  by_cases h : (force || depsSatisfied recs a) = true
  · rw [if_pos h] at he
    exact eventAgent_attemptEvents work a rid 1 a.maxRetries e he
  · rw [if_neg h] at he
    rcases List.mem_singleton.mp he with rfl
    rfl

theorem recordsFor_applyEvents_untouched (recs : List RunRecord) (evs : List EngineEvent)
    (n : String) (hev : ∀ e ∈ evs, eventAgent e ≠ n) :
    recordsFor (applyEvents recs evs) n = recordsFor recs n := by
  induction evs generalizing recs with
  | nil => rfl
  | cons e evs ih =>
      rw [show applyEvents recs (e :: evs) = applyEvents (applyEvent recs e) evs from rfl]
      rw [ih (applyEvent recs e) (fun e' he' => hev e' (List.mem_cons.mpr (Or.inr he')))]
      exact recordsFor_applyEvent_other recs e n (hev e (List.mem_cons.mpr (Or.inl rfl)))

theorem eventAgent_runAllFrom (work : String → Nat → AttemptResult) (force : Bool)
    (rid : Nat) :
    ∀ (agents : List AgentDescriptor) (recs : List RunRecord),
      ∀ e ∈ runAllFrom work force rid agents recs, ∃ b ∈ agents, eventAgent e = b.name := by
  intro agents
  induction agents with
  | nil =>
      intro recs e he
      exact absurd he (List.not_mem_nil e)
  | cons a rest ih =>
      intro recs e he
      rw [runAllFrom] at he
      rcases List.mem_append.mp he with h | h
      · exact ⟨a, List.mem_cons.mpr (Or.inl rfl), eventAgent_agentEvents work force rid recs a e h⟩
      · rcases ih _ e h with ⟨b, hb, hbe⟩
        exact ⟨b, List.mem_cons.mpr (Or.inr hb), hbe⟩

theorem NoRunFor_of_recordsFor_nil (recs : List RunRecord) (n : String)
    (h : recordsFor recs n = []) : NoRunFor recs n := by
  intro r hr hname _
  have : r ∈ recordsFor recs n := List.mem_filter.mpr ⟨hr, by simp [hname]⟩
  rw [h] at this
  exact absurd this (List.not_mem_nil r)

theorem pair_update (recs : List RunRecord) (a : AgentDescriptor) (rid k : Nat)
    (res : AttemptResult) (hnr : NoRunFor recs a.name) :
    recordsFor (applyEvent (applyEvent recs (.start a.name rid k)) (.finish a.name rid res)) a.name
      = recordsFor recs a.name ++ [⟨a.name, rid, k, resultStatus res, resultError res⟩]
    ∧ NoRunFor (applyEvent (applyEvent recs (.start a.name rid k)) (.finish a.name rid res)) a.name := by
  have hstate : applyEvent (applyEvent recs (.start a.name rid k)) (.finish a.name rid res)
      = recs ++ [⟨a.name, rid, k, resultStatus res, resultError res⟩] := by
    rw [applyEvent_start, applyEvent_finish, List.map_append]
    have h1 : List.map
        (fun r => if r.agentName = a.name ∧ r.runId = rid ∧ r.status = Status.running then
          { r with status := resultStatus res, errorMessage := resultError res }
        else r) recs = recs := by
      have := List.map_congr_left (l := recs)
        (f := fun r => if r.agentName = a.name ∧ r.runId = rid ∧ r.status = Status.running then
          { r with status := resultStatus res, errorMessage := resultError res }
        else r) (g := id) ?_
      · rw [this, List.map_id]
      · intro r hr
        have hcneg : ¬(r.agentName = a.name ∧ r.runId = rid ∧ r.status = Status.running) := by
          rintro ⟨hn, -, hst⟩
          exact hnr r hr hn hst
        exact if_neg hcneg
    have h2 : List.map
        (fun r => if r.agentName = a.name ∧ r.runId = rid ∧ r.status = Status.running then
          { r with status := resultStatus res, errorMessage := resultError res }
        else r) [(⟨a.name, rid, k, .running, none⟩ : RunRecord)]
        = [⟨a.name, rid, k, resultStatus res, resultError res⟩] := by
      rw [List.map_cons, List.map_nil, if_pos ⟨rfl, rfl, rfl⟩]
    rw [h1, h2]
  constructor
  · rw [hstate, recordsFor, recordsFor, List.filter_append]
    have : List.filter (fun r => decide (r.agentName = a.name))
        [(⟨a.name, rid, k, resultStatus res, resultError res⟩ : RunRecord)]
        = [⟨a.name, rid, k, resultStatus res, resultError res⟩] := by
      simp [List.filter_cons]
    rw [this]
  · rw [hstate]
    intro r hr hname hst
    rcases List.mem_append.mp hr with h | h
    · exact hnr r h hname hst
    · rcases List.mem_singleton.mp h with rfl
      exact absurd hst (resultStatus_ne_running res)

theorem attemptEvents_eq_success (work : String → Nat → AttemptResult) (a : AgentDescriptor)
    (rid k rem : Nat) (hres : work a.name k = .success) :
    attemptEvents work a rid k (rem + 1) =
      [.start a.name rid k, .finish a.name rid .success] := by
  rw [attemptEvents, hres]

theorem attemptEvents_eq_failure_last (work : String → Nat → AttemptResult)
    (a : AgentDescriptor) (rid k : Nat) (m : String) (hres : work a.name k = .failure m) :
    attemptEvents work a rid k 1 =
      [.start a.name rid k, .finish a.name rid (.failure m)] := by
  rw [attemptEvents, hres]
  rfl

theorem attemptEvents_eq_failure_cont (work : String → Nat → AttemptResult)
    (a : AgentDescriptor) (rid k rem : Nat) (m : String)
    (hres : work a.name k = .failure m) :
    attemptEvents work a rid k (rem + 2) =
      .start a.name rid k :: .finish a.name rid (.failure m) ::
        .wait a.name (backoffDelay a k) :: attemptEvents work a rid (k + 1) (rem + 1) := by
  rw [attemptEvents, hres]
  rfl

theorem attemptEvents_eq_timedOut_last (work : String → Nat → AttemptResult)
    (a : AgentDescriptor) (rid k : Nat) (hres : work a.name k = .timedOut) :
    attemptEvents work a rid k 1 =
      [.start a.name rid k, .finish a.name rid .timedOut] := by
  rw [attemptEvents, hres]
  rfl

theorem attemptEvents_eq_timedOut_cont (work : String → Nat → AttemptResult)
    (a : AgentDescriptor) (rid k rem : Nat) (hres : work a.name k = .timedOut) :
    attemptEvents work a rid k (rem + 2) =
      .start a.name rid k :: .finish a.name rid .timedOut ::
        .wait a.name (backoffDelay a k) :: attemptEvents work a rid (k + 1) (rem + 1) := by
  rw [attemptEvents, hres]
  rfl

theorem blockRecords_eq_success (work : String → Nat → AttemptResult) (a : AgentDescriptor)
    (rid k rem : Nat) (hres : work a.name k = .success) :
    blockRecords work a rid k (rem + 1) = [⟨a.name, rid, k, .succeeded, none⟩] := by
  rw [blockRecords, hres]
  rfl

theorem blockRecords_eq_failure_last (work : String → Nat → AttemptResult)
    (a : AgentDescriptor) (rid k : Nat) (m : String) (hres : work a.name k = .failure m) :
    blockRecords work a rid k 1 = [⟨a.name, rid, k, .failed, some m⟩] := by
  rw [blockRecords, hres]
  rfl

theorem blockRecords_eq_failure_cont (work : String → Nat → AttemptResult)
    (a : AgentDescriptor) (rid k rem : Nat) (m : String)
    (hres : work a.name k = .failure m) :
    blockRecords work a rid k (rem + 2) =
      ⟨a.name, rid, k, .failed, some m⟩ :: blockRecords work a rid (k + 1) (rem + 1) := by
  rw [blockRecords, hres]
  rfl

theorem blockRecords_eq_timedOut_last (work : String → Nat → AttemptResult)
    (a : AgentDescriptor) (rid k : Nat) (hres : work a.name k = .timedOut) :
    blockRecords work a rid k 1 = [⟨a.name, rid, k, .timedOut, some "timeout"⟩] := by
  rw [blockRecords, hres]
  rfl

theorem blockRecords_eq_timedOut_cont (work : String → Nat → AttemptResult)
    (a : AgentDescriptor) (rid k rem : Nat) (hres : work a.name k = .timedOut) :
    blockRecords work a rid k (rem + 2) =
      ⟨a.name, rid, k, .timedOut, some "timeout"⟩ :: blockRecords work a rid (k + 1) (rem + 1) := by
  rw [blockRecords, hres]
  rfl

theorem block_update (work : String → Nat → AttemptResult) (a : AgentDescriptor) (rid : Nat) :
    ∀ (fuel k : Nat) (recs : List RunRecord), NoRunFor recs a.name →
      recordsFor (applyEvents recs (attemptEvents work a rid k fuel)) a.name
        = recordsFor recs a.name ++ blockRecords work a rid k fuel
      ∧ NoRunFor (applyEvents recs (attemptEvents work a rid k fuel)) a.name := by
  intro fuel
  induction fuel with
  | zero =>
      intro k recs hnr
      exact ⟨(List.append_nil _).symm, hnr⟩
  | succ rem ih =>
      intro k recs hnr
      cases hres : work a.name k with
      | success =>
          obtain ⟨heq, hnr2⟩ := pair_update recs a rid k .success hnr
          rw [attemptEvents_eq_success work a rid k rem hres,
            blockRecords_eq_success work a rid k rem hres]
          exact ⟨heq, hnr2⟩
      | failure m =>
          obtain ⟨heq, hnr2⟩ := pair_update recs a rid k (.failure m) hnr
          cases rem with
          | zero =>
              rw [attemptEvents_eq_failure_last work a rid k m hres,
                blockRecords_eq_failure_last work a rid k m hres]
              exact ⟨heq, hnr2⟩
          | succ r =>
              rw [attemptEvents_eq_failure_cont work a rid k r m hres,
                blockRecords_eq_failure_cont work a rid k r m hres]
              obtain ⟨ihEq, ihNr⟩ := ih (k + 1)
                (applyEvent (applyEvent recs (.start a.name rid k))
                  (.finish a.name rid (.failure m))) hnr2
              refine ⟨?_, ihNr⟩
              · rw [show applyEvents recs
                    (EngineEvent.start a.name rid k :: EngineEvent.finish a.name rid (.failure m) ::
                      EngineEvent.wait a.name (backoffDelay a k) ::
                        attemptEvents work a rid (k + 1) (r + 1)) =
                  applyEvents (applyEvent (applyEvent recs (.start a.name rid k))
                    (.finish a.name rid (.failure m))) (attemptEvents work a rid (k + 1) (r + 1))
                  from rfl]
                rw [ihEq, heq, List.append_assoc]
                rfl
      | timedOut =>
          obtain ⟨heq, hnr2⟩ := pair_update recs a rid k .timedOut hnr
          cases rem with
          | zero =>
              rw [attemptEvents_eq_timedOut_last work a rid k hres,
                blockRecords_eq_timedOut_last work a rid k hres]
              exact ⟨heq, hnr2⟩
          | succ r =>
              rw [attemptEvents_eq_timedOut_cont work a rid k r hres,
                blockRecords_eq_timedOut_cont work a rid k r hres]
              obtain ⟨ihEq, ihNr⟩ := ih (k + 1)
                (applyEvent (applyEvent recs (.start a.name rid k))
                  (.finish a.name rid .timedOut)) hnr2
              refine ⟨?_, ihNr⟩
              · rw [show applyEvents recs
                    (EngineEvent.start a.name rid k :: EngineEvent.finish a.name rid .timedOut ::
                      EngineEvent.wait a.name (backoffDelay a k) ::
                        attemptEvents work a rid (k + 1) (r + 1)) =
                  applyEvents (applyEvent (applyEvent recs (.start a.name rid k))
                    (.finish a.name rid .timedOut)) (attemptEvents work a rid (k + 1) (r + 1))
                  from rfl]
                rw [ihEq, heq, List.append_assoc]
                rfl

theorem NoRunFor_nil (n : String) : NoRunFor [] n :=
  fun r hr => absurd hr (List.not_mem_nil r)

theorem recordsFor_nil (n : String) : recordsFor [] n = [] := rfl

theorem blockRecords_all_terminal (work : String → Nat → AttemptResult)
    (a : AgentDescriptor) (rid : Nat) :
    ∀ (fuel k : Nat), ∀ r ∈ blockRecords work a rid k fuel, isTerminal r.status = true := by
  intro fuel
  induction fuel with
  | zero =>
      intro k r hr
      exact absurd hr (List.not_mem_nil r)
  | succ rem ih =>
      intro k r hr
      cases hres : work a.name k with
      | success =>
          rw [blockRecords_eq_success work a rid k rem hres] at hr
          rcases List.mem_singleton.mp hr with rfl
          rfl
      | failure m =>
          cases rem with
          | zero =>
              rw [blockRecords_eq_failure_last work a rid k m hres] at hr
              rcases List.mem_singleton.mp hr with rfl
              rfl
          | succ r' =>
              rw [blockRecords_eq_failure_cont work a rid k r' m hres] at hr
              rcases List.mem_cons.mp hr with rfl | hr'
              · rfl
              · exact ih (k + 1) r hr'
      | timedOut =>
          cases rem with
          | zero =>
              rw [blockRecords_eq_timedOut_last work a rid k hres] at hr
              rcases List.mem_singleton.mp hr with rfl
              rfl
          | succ r' =>
              rw [blockRecords_eq_timedOut_cont work a rid k r' hres] at hr
              rcases List.mem_cons.mp hr with rfl | hr'
              · rfl
              · exact ih (k + 1) r hr'

theorem blockRecords_last (work : String → Nat → AttemptResult) (a : AgentDescriptor)
    (rid : Nat) :
    ∀ (fuel k : Nat), fuel ≠ 0 →
      ∃ r, (blockRecords work a rid k fuel).getLast? = some r ∧
        (r.status = Status.succeeded ∨ r.status = Status.failed ∨ r.status = Status.timedOut) := by
  intro fuel
  induction fuel with
  | zero => intro k h; exact absurd rfl h
  | succ rem ih =>
      intro k _
      cases hres : work a.name k with
      | success =>
          rw [blockRecords_eq_success work a rid k rem hres]
          exact ⟨_, List.getLast?_singleton _, Or.inl rfl⟩
      | failure m =>
          cases rem with
          | zero =>
              rw [blockRecords_eq_failure_last work a rid k m hres]
              exact ⟨_, List.getLast?_singleton _, Or.inr (Or.inl rfl)⟩
          | succ r' =>
              rw [blockRecords_eq_failure_cont work a rid k r' m hres]
              obtain ⟨r, hrl, hrs⟩ := ih (k + 1) (Nat.succ_ne_zero r')
              refine ⟨r, ?_, hrs⟩
              rw [show (⟨a.name, rid, k, Status.failed, some m⟩ : RunRecord) ::
                    blockRecords work a rid (k + 1) (r' + 1)
                  = [⟨a.name, rid, k, Status.failed, some m⟩] ++
                    blockRecords work a rid (k + 1) (r' + 1) from rfl]
              rw [List.getLast?_append, hrl]
              rfl
      | timedOut =>
          cases rem with
          | zero =>
              rw [blockRecords_eq_timedOut_last work a rid k hres]
              exact ⟨_, List.getLast?_singleton _, Or.inr (Or.inr rfl)⟩
          | succ r' =>
              rw [blockRecords_eq_timedOut_cont work a rid k r' hres]
              obtain ⟨r, hrl, hrs⟩ := ih (k + 1) (Nat.succ_ne_zero r')
              refine ⟨r, ?_, hrs⟩
              rw [show (⟨a.name, rid, k, Status.timedOut, some "timeout"⟩ : RunRecord) ::
                    blockRecords work a rid (k + 1) (r' + 1)
                  = [⟨a.name, rid, k, Status.timedOut, some "timeout"⟩] ++
                    blockRecords work a rid (k + 1) (r' + 1) from rfl]
              rw [List.getLast?_append, hrl]
              rfl

theorem latestTerminal_recordsFor (recs : List RunRecord) (n : String) :
    latestTerminal recs n
      = ((recordsFor recs n).filter (fun r => isTerminal r.status)).getLast? := by
  rw [latestTerminal, recordsFor, List.filter_filter]
  congr 1
  apply List.filter_congr
  intro r _
  exact Bool.and_comm _ _

theorem agentTerminal_of_block (recs : List RunRecord) (n : String) (B : List RunRecord)
    (hrf : recordsFor recs n = B) (hterm : ∀ r ∈ B, isTerminal r.status = true) :
    agentTerminal recs n = B.getLast?.map RunRecord.status := by
  rw [agentTerminal, latestTerminal_recordsFor, hrf, List.filter_eq_self.mpr hterm]

theorem recordsFor_skip_self (recs : List RunRecord) (n : String) (rid : Nat) :
    recordsFor (applyEvent recs (.skip n rid)) n
      = recordsFor recs n ++ [⟨n, rid, 1, .skipped, none⟩] := by
  rw [applyEvent_skip, recordsFor, recordsFor, List.filter_append]
  congr 1
  simp [List.filter_cons]

theorem depsSatisfied_single (recs : List RunRecord) (a : AgentDescriptor) (d : String)
    (hdeps : a.dependencies = [d]) :
    depsSatisfied recs a = decide (agentTerminal recs d = some Status.succeeded) := by
  rw [depsSatisfied, hdeps]
  simp [List.all_cons]

theorem agentEvents_eligible (work : String → Nat → AttemptResult) (rid : Nat)
    (recs : List RunRecord) (a : AgentDescriptor) (hc : depsSatisfied recs a = true) :
    agentEvents work false rid recs a = attemptEvents work a rid 1 a.maxRetries := by
  rw [agentEvents, hc]
  rfl

theorem agentEvents_skipped (work : String → Nat → AttemptResult) (rid : Nat)
    (recs : List RunRecord) (a : AgentDescriptor) (hc : depsSatisfied recs a = false) :
    agentEvents work false rid recs a = [.skip a.name rid] := by
  rw [agentEvents, hc]
  rfl

/-- Per-agent attempt block of a run and the status it ends in. -/
def blockFor (work : String → Nat → AttemptResult) (a : AgentDescriptor) (rid : Nat) :
    List RunRecord :=
  blockRecords work a rid 1 a.maxRetries

/-- Terminal status an agent's attempt block ends in. -/
def blockLast (work : String → Nat → AttemptResult) (a : AgentDescriptor) (rid : Nat) :
    Option Status :=
  (blockFor work a rid).getLast?.map RunRecord.status

theorem attempt_untouched (work : String → Nat → AttemptResult) (a : AgentDescriptor)
    (rid fuel : Nat) (recs : List RunRecord) (n : String) (hneq : n ≠ a.name) :
    recordsFor (applyEvents recs (attemptEvents work a rid 1 fuel)) n = recordsFor recs n :=
  recordsFor_applyEvents_untouched recs _ n (fun e he => by
    rw [eventAgent_attemptEvents work a rid 1 fuel e he]
    exact fun hh => hneq hh.symm)

theorem skip_untouched (recs : List RunRecord) (n : String) (rid : Nat) (n' : String)
    (hneq : n' ≠ n) :
    recordsFor (applyEvent recs (.skip n rid)) n' = recordsFor recs n' :=
  recordsFor_applyEvent_other recs _ n' (fun hh => hneq hh.symm)

theorem block_append (work : String → Nat → AttemptResult) (a : AgentDescriptor)
    (rid : Nat) (recs : List RunRecord) (n : String) (hname : a.name = n) (fuel : Nat)
    (hnil : recordsFor recs n = []) :
    recordsFor (applyEvents recs (attemptEvents work a rid 1 fuel)) n
      = blockRecords work a rid 1 fuel
    ∧ agentTerminal (applyEvents recs (attemptEvents work a rid 1 fuel)) n
      = (blockRecords work a rid 1 fuel).getLast?.map RunRecord.status := by
  subst hname
  have h := block_update work a rid fuel 1 recs (NoRunFor_of_recordsFor_nil recs a.name hnil)
  have h1 : recordsFor (applyEvents recs (attemptEvents work a rid 1 fuel)) a.name
      = blockRecords work a rid 1 fuel := by
    rw [h.1, hnil, List.nil_append]
  refine ⟨h1, ?_⟩
  exact agentTerminal_of_block _ _ _ h1
    (fun r hr => blockRecords_all_terminal work a rid fuel 1 r hr)

theorem skip_append (recs : List RunRecord) (n : String) (rid : Nat)
    (hnil : recordsFor recs n = []) :
    recordsFor (applyEvent recs (.skip n rid)) n = [⟨n, rid, 1, .skipped, none⟩]
    ∧ agentTerminal (applyEvent recs (.skip n rid)) n = some Status.skipped := by
  have h := recordsFor_skip_self recs n rid
  rw [hnil, List.nil_append] at h
  refine ⟨h, ?_⟩
  have := agentTerminal_of_block _ _ _ h (fun r hr => by
    rcases List.mem_singleton.mp hr with rfl
    rfl)
  rw [this]
  rfl

/-! ### The four scheduling steps of a run over the deployed registry -/

/-- Events of agent 1 of a `run-all` over the registry. -/
def walkEv1 (work : String → Nat → AttemptResult) (rid : Nat) : List EngineEvent :=
  agentEvents work false rid [] patternRecognitionAgent

/-- Store after agent 1 was handled. -/
def walkState1 (work : String → Nat → AttemptResult) (rid : Nat) : List RunRecord :=
  applyEvents [] (walkEv1 work rid)

/-- Events of agent 2 of a `run-all` over the registry. -/
def walkEv2 (work : String → Nat → AttemptResult) (rid : Nat) : List EngineEvent :=
  agentEvents work false rid (walkState1 work rid) businessIntelligenceAgent

/-- Store after agent 2 was handled. -/
def walkState2 (work : String → Nat → AttemptResult) (rid : Nat) : List RunRecord :=
  applyEvents (walkState1 work rid) (walkEv2 work rid)

/-- Events of agent 3 of a `run-all` over the registry. -/
def walkEv3 (work : String → Nat → AttemptResult) (rid : Nat) : List EngineEvent :=
  agentEvents work false rid (walkState2 work rid) abTestingAgent

/-- Store after agent 3 was handled. -/
def walkState3 (work : String → Nat → AttemptResult) (rid : Nat) : List RunRecord :=
  applyEvents (walkState2 work rid) (walkEv3 work rid)

/-- Events of agent 4 of a `run-all` over the registry. -/
def walkEv4 (work : String → Nat → AttemptResult) (rid : Nat) : List EngineEvent :=
  agentEvents work false rid (walkState3 work rid) insightsEngineAgent

/-- Store after agent 4 was handled: the final store of the run. -/
def walkState4 (work : String → Nat → AttemptResult) (rid : Nat) : List RunRecord :=
  applyEvents (walkState3 work rid) (walkEv4 work rid)

theorem runAll_registry_decomp (work : String → Nat → AttemptResult) (rid : Nat) :
    runAll work false rid registry =
      walkEv1 work rid ++ (walkEv2 work rid ++ (walkEv3 work rid ++ (walkEv4 work rid ++ []))) :=
  rfl

theorem runAllRecords_registry (work : String → Nat → AttemptResult) (rid : Nat) :
    runAllRecords work false rid registry = walkState4 work rid := by
  rw [runAllRecords, runAll_registry_decomp, applyEvents_append, applyEvents_append,
    applyEvents_append, applyEvents_append]
  rfl

theorem walkEv1_eq (work : String → Nat → AttemptResult) (rid : Nat) :
    walkEv1 work rid = attemptEvents work patternRecognitionAgent rid 1 3 := rfl

theorem walkState1_records (work : String → Nat → AttemptResult) (rid : Nat) :
    recordsFor (walkState1 work rid) "pattern_recognition"
      = blockFor work patternRecognitionAgent rid :=
  (block_append work patternRecognitionAgent rid [] "pattern_recognition" rfl 3 rfl).1

theorem walkState1_terminal (work : String → Nat → AttemptResult) (rid : Nat) :
    agentTerminal (walkState1 work rid) "pattern_recognition"
      = blockLast work patternRecognitionAgent rid :=
  (block_append work patternRecognitionAgent rid [] "pattern_recognition" rfl 3 rfl).2

theorem walkState1_records_other (work : String → Nat → AttemptResult) (rid : Nat)
    (n : String) (hn : n ≠ "pattern_recognition") :
    recordsFor (walkState1 work rid) n = [] :=
  attempt_untouched work patternRecognitionAgent rid 3 [] n hn

theorem skip_untouched' (recs : List RunRecord) (n : String) (rid : Nat) (n' : String)
    (hneq : n' ≠ n) :
    recordsFor (applyEvents recs [.skip n rid]) n' = recordsFor recs n' :=
  skip_untouched recs n rid n' hneq

theorem skip_append' (recs : List RunRecord) (n : String) (rid : Nat)
    (hnil : recordsFor recs n = []) :
    recordsFor (applyEvents recs [.skip n rid]) n = [⟨n, rid, 1, .skipped, none⟩]
    ∧ agentTerminal (applyEvents recs [.skip n rid]) n = some Status.skipped :=
  skip_append recs n rid hnil

/-- How a `run-all` over the deployed registry unfolds, for any unit
of work behaviour: agent 1 always runs its attempt block; each later
agent runs its block exactly when every earlier block ended Succeeded,
and is otherwise Skipped with a single Skipped record and no attempt. -/
theorem registry_walk (work : String → Nat → AttemptResult) (rid : Nat) :
    recordsFor (runAllRecords work false rid registry) "pattern_recognition"
      = blockFor work patternRecognitionAgent rid
    ∧ ((blockLast work patternRecognitionAgent rid = some Status.succeeded
          ∧ walkEv2 work rid = attemptEvents work businessIntelligenceAgent rid 1 3
          ∧ recordsFor (runAllRecords work false rid registry) "business_intelligence"
              = blockFor work businessIntelligenceAgent rid)
      ∨ (¬blockLast work patternRecognitionAgent rid = some Status.succeeded
          ∧ walkEv2 work rid = [.skip "business_intelligence" rid]
          ∧ recordsFor (runAllRecords work false rid registry) "business_intelligence"
              = [⟨"business_intelligence", rid, 1, .skipped, none⟩]))
    ∧ ((blockLast work patternRecognitionAgent rid = some Status.succeeded
          ∧ blockLast work businessIntelligenceAgent rid = some Status.succeeded
          ∧ walkEv3 work rid = attemptEvents work abTestingAgent rid 1 3
          ∧ recordsFor (runAllRecords work false rid registry) "ab_testing"
              = blockFor work abTestingAgent rid)
      ∨ (¬(blockLast work patternRecognitionAgent rid = some Status.succeeded
            ∧ blockLast work businessIntelligenceAgent rid = some Status.succeeded)
          ∧ walkEv3 work rid = [.skip "ab_testing" rid]
          ∧ recordsFor (runAllRecords work false rid registry) "ab_testing"
              = [⟨"ab_testing", rid, 1, .skipped, none⟩]))
    ∧ ((blockLast work patternRecognitionAgent rid = some Status.succeeded
          ∧ blockLast work businessIntelligenceAgent rid = some Status.succeeded
          ∧ blockLast work abTestingAgent rid = some Status.succeeded
          ∧ walkEv4 work rid = attemptEvents work insightsEngineAgent rid 1 3
          ∧ recordsFor (runAllRecords work false rid registry) "insights_engine"
              = blockFor work insightsEngineAgent rid)
      ∨ (¬(blockLast work patternRecognitionAgent rid = some Status.succeeded
            ∧ blockLast work businessIntelligenceAgent rid = some Status.succeeded
            ∧ blockLast work abTestingAgent rid = some Status.succeeded)
          ∧ walkEv4 work rid = [.skip "insights_engine" rid]
          ∧ recordsFor (runAllRecords work false rid registry) "insights_engine"
              = [⟨"insights_engine", rid, 1, .skipped, none⟩])) := by
  have hbi1 : recordsFor (walkState1 work rid) "business_intelligence" = [] :=
    walkState1_records_other work rid _ (by decide)
  have hab1 : recordsFor (walkState1 work rid) "ab_testing" = [] :=
    walkState1_records_other work rid _ (by decide)
  have hie1 : recordsFor (walkState1 work rid) "insights_engine" = [] :=
    walkState1_records_other work rid _ (by decide)
  by_cases hs1 : blockLast work patternRecognitionAgent rid = some Status.succeeded
  · -- agent 1 succeeded: agent 2 runs its block
    have hE2 : walkEv2 work rid = attemptEvents work businessIntelligenceAgent rid 1 3 := by
      rw [walkEv2]
      apply agentEvents_eligible
      rw [depsSatisfied_single _ _ "pattern_recognition" rfl, walkState1_terminal, hs1]
      rfl
    have hbi2 : recordsFor (walkState2 work rid) "business_intelligence"
        = blockFor work businessIntelligenceAgent rid := by
      rw [walkState2, hE2]
      exact (block_append work businessIntelligenceAgent rid (walkState1 work rid)
        "business_intelligence" rfl 3 hbi1).1
    have hbiT2 : agentTerminal (walkState2 work rid) "business_intelligence"
        = blockLast work businessIntelligenceAgent rid := by
      rw [walkState2, hE2]
      exact (block_append work businessIntelligenceAgent rid (walkState1 work rid)
        "business_intelligence" rfl 3 hbi1).2
    have hpr2 : recordsFor (walkState2 work rid) "pattern_recognition"
        = blockFor work patternRecognitionAgent rid := by
      rw [walkState2, hE2,
        attempt_untouched work businessIntelligenceAgent rid 3 _ _ (by decide)]
      exact walkState1_records work rid
    have hab2 : recordsFor (walkState2 work rid) "ab_testing" = [] := by
      rw [walkState2, hE2,
        attempt_untouched work businessIntelligenceAgent rid 3 _ _ (by decide)]
      exact hab1
    have hie2 : recordsFor (walkState2 work rid) "insights_engine" = [] := by
      rw [walkState2, hE2,
        attempt_untouched work businessIntelligenceAgent rid 3 _ _ (by decide)]
      exact hie1
    by_cases hs2 : blockLast work businessIntelligenceAgent rid = some Status.succeeded
    · -- agents 1 and 2 succeeded: agent 3 runs its block
      have hE3 : walkEv3 work rid = attemptEvents work abTestingAgent rid 1 3 := by
        rw [walkEv3]
        apply agentEvents_eligible
        rw [depsSatisfied_single _ _ "business_intelligence" rfl, hbiT2, hs2]
        rfl
      have hab3 : recordsFor (walkState3 work rid) "ab_testing"
          = blockFor work abTestingAgent rid := by
        rw [walkState3, hE3]
        exact (block_append work abTestingAgent rid (walkState2 work rid)
          "ab_testing" rfl 3 hab2).1
      have habT3 : agentTerminal (walkState3 work rid) "ab_testing"
          = blockLast work abTestingAgent rid := by
        rw [walkState3, hE3]
        exact (block_append work abTestingAgent rid (walkState2 work rid)
          "ab_testing" rfl 3 hab2).2
      have hpr3 : recordsFor (walkState3 work rid) "pattern_recognition"
          = blockFor work patternRecognitionAgent rid := by
        rw [walkState3, hE3, attempt_untouched work abTestingAgent rid 3 _ _ (by decide)]
        exact hpr2
      have hbi3 : recordsFor (walkState3 work rid) "business_intelligence"
          = blockFor work businessIntelligenceAgent rid := by
        rw [walkState3, hE3, attempt_untouched work abTestingAgent rid 3 _ _ (by decide)]
        exact hbi2
      have hie3 : recordsFor (walkState3 work rid) "insights_engine" = [] := by
        rw [walkState3, hE3, attempt_untouched work abTestingAgent rid 3 _ _ (by decide)]
        exact hie2
      by_cases hs3 : blockLast work abTestingAgent rid = some Status.succeeded
      · -- agents 1-3 succeeded: agent 4 runs its block
        have hE4 : walkEv4 work rid = attemptEvents work insightsEngineAgent rid 1 3 := by
          rw [walkEv4]
          apply agentEvents_eligible
          rw [depsSatisfied_single _ _ "ab_testing" rfl, habT3, hs3]
          rfl
        have hie4 : recordsFor (walkState4 work rid) "insights_engine"
            = blockFor work insightsEngineAgent rid := by
          rw [walkState4, hE4]
          exact (block_append work insightsEngineAgent rid (walkState3 work rid)
            "insights_engine" rfl 3 hie3).1
        have hpr4 : recordsFor (walkState4 work rid) "pattern_recognition"
            = blockFor work patternRecognitionAgent rid := by
          rw [walkState4, hE4, attempt_untouched work insightsEngineAgent rid 3 _ _ (by decide)]
          exact hpr3
        have hbi4 : recordsFor (walkState4 work rid) "business_intelligence"
            = blockFor work businessIntelligenceAgent rid := by
          rw [walkState4, hE4, attempt_untouched work insightsEngineAgent rid 3 _ _ (by decide)]
          exact hbi3
        have hab4 : recordsFor (walkState4 work rid) "ab_testing"
            = blockFor work abTestingAgent rid := by
          rw [walkState4, hE4, attempt_untouched work insightsEngineAgent rid 3 _ _ (by decide)]
          exact hab3
        refine ⟨by rw [runAllRecords_registry]; exact hpr4,
          Or.inl ⟨hs1, hE2, by rw [runAllRecords_registry]; exact hbi4⟩,
          Or.inl ⟨hs1, hs2, hE3, by rw [runAllRecords_registry]; exact hab4⟩,
          Or.inl ⟨hs1, hs2, hs3, hE4, by rw [runAllRecords_registry]; exact hie4⟩⟩
      · -- agent 3 did not succeed: agent 4 is skipped
        have hE4 : walkEv4 work rid = [.skip "insights_engine" rid] := by
          rw [walkEv4]
          apply agentEvents_skipped
          rw [depsSatisfied_single _ _ "ab_testing" rfl, habT3]
          exact decide_eq_false hs3
        have hie4 : recordsFor (walkState4 work rid) "insights_engine"
            = [⟨"insights_engine", rid, 1, .skipped, none⟩] := by
          rw [walkState4, hE4]
          exact (skip_append' (walkState3 work rid) _ rid hie3).1
        have hpr4 : recordsFor (walkState4 work rid) "pattern_recognition"
            = blockFor work patternRecognitionAgent rid := by
          rw [walkState4, hE4, skip_untouched' _ _ _ _ (by decide)]
          exact hpr3
        have hbi4 : recordsFor (walkState4 work rid) "business_intelligence"
            = blockFor work businessIntelligenceAgent rid := by
          rw [walkState4, hE4, skip_untouched' _ _ _ _ (by decide)]
          exact hbi3
        have hab4 : recordsFor (walkState4 work rid) "ab_testing"
            = blockFor work abTestingAgent rid := by
          rw [walkState4, hE4, skip_untouched' _ _ _ _ (by decide)]
          exact hab3
        refine ⟨by rw [runAllRecords_registry]; exact hpr4,
          Or.inl ⟨hs1, hE2, by rw [runAllRecords_registry]; exact hbi4⟩,
          Or.inl ⟨hs1, hs2, hE3, by rw [runAllRecords_registry]; exact hab4⟩,
          Or.inr ⟨fun hc => hs3 hc.2.2, hE4, by rw [runAllRecords_registry]; exact hie4⟩⟩
    · -- agent 2 did not succeed: agents 3 and 4 are skipped
      have hE3 : walkEv3 work rid = [.skip "ab_testing" rid] := by
        rw [walkEv3]
        apply agentEvents_skipped
        rw [depsSatisfied_single _ _ "business_intelligence" rfl, hbiT2]
        exact decide_eq_false hs2
      have hab3 : recordsFor (walkState3 work rid) "ab_testing"
          = [⟨"ab_testing", rid, 1, .skipped, none⟩] := by
        rw [walkState3, hE3]
        exact (skip_append' (walkState2 work rid) _ rid hab2).1
      have habT3 : agentTerminal (walkState3 work rid) "ab_testing" = some Status.skipped := by
        rw [walkState3, hE3]
        exact (skip_append' (walkState2 work rid) _ rid hab2).2
      have hpr3 : recordsFor (walkState3 work rid) "pattern_recognition"
          = blockFor work patternRecognitionAgent rid := by
        rw [walkState3, hE3, skip_untouched' _ _ _ _ (by decide)]
        exact hpr2
      have hbi3 : recordsFor (walkState3 work rid) "business_intelligence"
          = blockFor work businessIntelligenceAgent rid := by
        rw [walkState3, hE3, skip_untouched' _ _ _ _ (by decide)]
        exact hbi2
      have hie3 : recordsFor (walkState3 work rid) "insights_engine" = [] := by
        rw [walkState3, hE3, skip_untouched' _ _ _ _ (by decide)]
        exact hie2
      have hE4 : walkEv4 work rid = [.skip "insights_engine" rid] := by
        rw [walkEv4]
        apply agentEvents_skipped
        rw [depsSatisfied_single _ _ "ab_testing" rfl, habT3]
        rfl
      have hie4 : recordsFor (walkState4 work rid) "insights_engine"
          = [⟨"insights_engine", rid, 1, .skipped, none⟩] := by
        rw [walkState4, hE4]
        exact (skip_append' (walkState3 work rid) _ rid hie3).1
      have hpr4 : recordsFor (walkState4 work rid) "pattern_recognition"
          = blockFor work patternRecognitionAgent rid := by
        rw [walkState4, hE4, skip_untouched' _ _ _ _ (by decide)]
        exact hpr3
      have hbi4 : recordsFor (walkState4 work rid) "business_intelligence"
          = blockFor work businessIntelligenceAgent rid := by
        rw [walkState4, hE4, skip_untouched' _ _ _ _ (by decide)]
        exact hbi3
      have hab4 : recordsFor (walkState4 work rid) "ab_testing"
          = [⟨"ab_testing", rid, 1, .skipped, none⟩] := by
        rw [walkState4, hE4, skip_untouched' _ _ _ _ (by decide)]
        exact hab3
      refine ⟨by rw [runAllRecords_registry]; exact hpr4,
        Or.inl ⟨hs1, hE2, by rw [runAllRecords_registry]; exact hbi4⟩,
        Or.inr ⟨fun hc => hs2 hc.2, hE3, by rw [runAllRecords_registry]; exact hab4⟩,
        Or.inr ⟨fun hc => hs2 hc.2.1, hE4, by rw [runAllRecords_registry]; exact hie4⟩⟩
  · -- agent 1 did not succeed: agents 2, 3 and 4 are skipped
    have hE2 : walkEv2 work rid = [.skip "business_intelligence" rid] := by
      rw [walkEv2]
      apply agentEvents_skipped
      rw [depsSatisfied_single _ _ "pattern_recognition" rfl, walkState1_terminal]
      exact decide_eq_false hs1
    have hbi2 : recordsFor (walkState2 work rid) "business_intelligence"
        = [⟨"business_intelligence", rid, 1, .skipped, none⟩] := by
      rw [walkState2, hE2]
      exact (skip_append' (walkState1 work rid) _ rid hbi1).1
    have hbiT2 : agentTerminal (walkState2 work rid) "business_intelligence"
        = some Status.skipped := by
      rw [walkState2, hE2]
      exact (skip_append' (walkState1 work rid) _ rid hbi1).2
    have hpr2 : recordsFor (walkState2 work rid) "pattern_recognition"
        = blockFor work patternRecognitionAgent rid := by
      rw [walkState2, hE2, skip_untouched' _ _ _ _ (by decide)]
      exact walkState1_records work rid
    have hab2 : recordsFor (walkState2 work rid) "ab_testing" = [] := by
      rw [walkState2, hE2, skip_untouched' _ _ _ _ (by decide)]
      exact hab1
    have hie2 : recordsFor (walkState2 work rid) "insights_engine" = [] := by
      rw [walkState2, hE2, skip_untouched' _ _ _ _ (by decide)]
      exact hie1
    have hE3 : walkEv3 work rid = [.skip "ab_testing" rid] := by
      rw [walkEv3]
      apply agentEvents_skipped
      rw [depsSatisfied_single _ _ "business_intelligence" rfl, hbiT2]
      rfl
    have hab3 : recordsFor (walkState3 work rid) "ab_testing"
        = [⟨"ab_testing", rid, 1, .skipped, none⟩] := by
      rw [walkState3, hE3]
      exact (skip_append' (walkState2 work rid) _ rid hab2).1
    have habT3 : agentTerminal (walkState3 work rid) "ab_testing" = some Status.skipped := by
      rw [walkState3, hE3]
      exact (skip_append' (walkState2 work rid) _ rid hab2).2
    have hpr3 : recordsFor (walkState3 work rid) "pattern_recognition"
        = blockFor work patternRecognitionAgent rid := by
      rw [walkState3, hE3, skip_untouched' _ _ _ _ (by decide)]
      exact hpr2
    have hbi3 : recordsFor (walkState3 work rid) "business_intelligence"
        = [⟨"business_intelligence", rid, 1, .skipped, none⟩] := by
      rw [walkState3, hE3, skip_untouched' _ _ _ _ (by decide)]
      exact hbi2
    have hie3 : recordsFor (walkState3 work rid) "insights_engine" = [] := by
      rw [walkState3, hE3, skip_untouched' _ _ _ _ (by decide)]
      exact hie2
    have hE4 : walkEv4 work rid = [.skip "insights_engine" rid] := by
      rw [walkEv4]
      apply agentEvents_skipped
      rw [depsSatisfied_single _ _ "ab_testing" rfl, habT3]
      rfl
    have hie4 : recordsFor (walkState4 work rid) "insights_engine"
        = [⟨"insights_engine", rid, 1, .skipped, none⟩] := by
      rw [walkState4, hE4]
      exact (skip_append' (walkState3 work rid) _ rid hie3).1
    have hpr4 : recordsFor (walkState4 work rid) "pattern_recognition"
        = blockFor work patternRecognitionAgent rid := by
      rw [walkState4, hE4, skip_untouched' _ _ _ _ (by decide)]
      exact hpr3
    have hbi4 : recordsFor (walkState4 work rid) "business_intelligence"
        = [⟨"business_intelligence", rid, 1, .skipped, none⟩] := by
      rw [walkState4, hE4, skip_untouched' _ _ _ _ (by decide)]
      exact hbi3
    have hab4 : recordsFor (walkState4 work rid) "ab_testing"
        = [⟨"ab_testing", rid, 1, .skipped, none⟩] := by
      rw [walkState4, hE4, skip_untouched' _ _ _ _ (by decide)]
      exact hab3
    refine ⟨by rw [runAllRecords_registry]; exact hpr4,
      Or.inr ⟨hs1, hE2, by rw [runAllRecords_registry]; exact hbi4⟩,
      Or.inr ⟨fun hc => hs1 hc.1, hE3, by rw [runAllRecords_registry]; exact hab4⟩,
      Or.inr ⟨fun hc => hs1 hc.1, hE4, by rw [runAllRecords_registry]; exact hie4⟩⟩

theorem blockFor_allFail (work : String → Nat → AttemptResult) (a : AgentDescriptor)
    (rid : Nat) (msg : Nat → String) (hmr : a.maxRetries = 3)
    (hf : ∀ k, work a.name k = .failure (msg k)) :
    blockFor work a rid =
      [⟨a.name, rid, 1, .failed, some (msg 1)⟩,
       ⟨a.name, rid, 2, .failed, some (msg 2)⟩,
       ⟨a.name, rid, 3, .failed, some (msg 3)⟩] := by
  rw [blockFor, hmr, blockRecords_eq_failure_cont work a rid 1 1 (msg 1) (hf 1),
    blockRecords_eq_failure_cont work a rid 2 0 (msg 2) (hf 2),
    blockRecords_eq_failure_last work a rid 3 (msg 3) (hf 3)]

theorem blockLast_allFail (work : String → Nat → AttemptResult) (a : AgentDescriptor)
    (rid : Nat) (msg : Nat → String) (hmr : a.maxRetries = 3)
    (hf : ∀ k, work a.name k = .failure (msg k)) :
    blockLast work a rid = some Status.failed := by
  rw [blockLast, blockFor_allFail work a rid msg hmr hf]
  rfl

theorem blockFor_allSuccess (work : String → Nat → AttemptResult) (a : AgentDescriptor)
    (rid : Nat) (hmr : a.maxRetries = 3) (hf : ∀ k, work a.name k = .success) :
    blockFor work a rid = [⟨a.name, rid, 1, .succeeded, none⟩] := by
  rw [blockFor, hmr, blockRecords_eq_success work a rid 1 2 (hf 1)]

theorem blockLast_allSuccess (work : String → Nat → AttemptResult) (a : AgentDescriptor)
    (rid : Nat) (hmr : a.maxRetries = 3) (hf : ∀ k, work a.name k = .success) :
    blockLast work a rid = some Status.succeeded := by
  rw [blockLast, blockFor_allSuccess work a rid hmr hf]
  rfl

theorem start_notin_attempts (work : String → Nat → AttemptResult) (a : AgentDescriptor)
    (rid fuel : Nat) (n : String) (hn : n ≠ a.name) (rid' k : Nat) :
    EngineEvent.start n rid' k ∉ attemptEvents work a rid 1 fuel :=
  fun he => hn (eventAgent_attemptEvents work a rid 1 fuel _ he)

theorem start_notin_ev_attempts {work : String → Nat → AttemptResult}
    {a : AgentDescriptor} {rid fuel : Nat} {E : List EngineEvent}
    (hE : E = attemptEvents work a rid 1 fuel) (n : String) (hn : n ≠ a.name) :
    ∀ k, EngineEvent.start n rid k ∉ E := by
  intro k
  rw [hE]
  exact start_notin_attempts work a rid fuel n hn rid k

theorem start_notin_ev_skip {E : List EngineEvent} {n' : String} {rid' : Nat}
    (hE : E = [EngineEvent.skip n' rid']) (n : String) :
    ∀ k, EngineEvent.start n rid' k ∉ E := by
  intro k hmem
  rw [hE] at hmem
  rcases List.mem_singleton.mp hmem with h
  exact EngineEvent.noConfusion h

theorem start_notin_runAll (work : String → Nat → AttemptResult) (rid : Nat) (n : String)
    (h1 : ∀ k, EngineEvent.start n rid k ∉ walkEv1 work rid)
    (h2 : ∀ k, EngineEvent.start n rid k ∉ walkEv2 work rid)
    (h3 : ∀ k, EngineEvent.start n rid k ∉ walkEv3 work rid)
    (h4 : ∀ k, EngineEvent.start n rid k ∉ walkEv4 work rid) :
    ∀ k, EngineEvent.start n rid k ∉ runAll work false rid registry := by
  intro k hmem
  rw [runAll_registry_decomp] at hmem
  rcases List.mem_append.mp hmem with h | hmem
  · exact h1 k h
  rcases List.mem_append.mp hmem with h | hmem
  · exact h2 k h
  rcases List.mem_append.mp hmem with h | hmem
  · exact h3 k h
  rcases List.mem_append.mp hmem with h | hmem
  · exact h4 k h
  · exact absurd hmem (List.not_mem_nil _)

/-- The agent at one of the four registry positions. -/
def registryAgent (i : Fin 4) : AgentDescriptor := registry.get i

theorem agentTerminal_of_three_failed (recs : List RunRecord) (n : String) (rid : Nat)
    (msg : Nat → String)
    (hrf : recordsFor recs n =
      [⟨n, rid, 1, .failed, some (msg 1)⟩, ⟨n, rid, 2, .failed, some (msg 2)⟩,
       ⟨n, rid, 3, .failed, some (msg 3)⟩]) :
    agentTerminal recs n = some Status.failed := by
  have h := agentTerminal_of_block recs n _ hrf (by
    intro r hr
    simp only [List.mem_cons, List.mem_singleton, List.not_mem_nil, or_false] at hr
    rcases hr with rfl | rfl | rfl <;> rfl)
  rw [h]
  rfl

theorem agentTerminal_of_skiprec (recs : List RunRecord) (n : String) (rid : Nat)
    (hrf : recordsFor recs n = [⟨n, rid, 1, .skipped, none⟩]) :
    agentTerminal recs n = some Status.skipped := by
  have h := agentTerminal_of_block recs n _ hrf (by
    intro r hr
    rcases List.mem_singleton.mp hr with rfl
    rfl)
  rw [h]
  rfl

/-- C2: in a run that reaches an agent whose unit of work fails on
every invocation (`maxRetries = 3` as configured for every registry
agent), that agent accumulates exactly 3 RunRecords, each Failed,
with attempts 1, 2, 3; its terminal status is Failed; and every agent
after it in the chain (its transitive dependents) ends Skipped with a
single Skipped record, its unit of work never invoked. -/
theorem c2_retry_exhaustion (work : String → Nat → AttemptResult) (rid : Nat) (i : Fin 4)
    (msg : Nat → String)
    (hpre : ∀ j : Fin 4, j < i → ∀ k, work (registryAgent j).name k = .success)
    (hf : ∀ k, work (registryAgent i).name k = .failure (msg k)) :
    recordsFor (runAllRecords work false rid registry) (registryAgent i).name
      = [⟨(registryAgent i).name, rid, 1, .failed, some (msg 1)⟩,
         ⟨(registryAgent i).name, rid, 2, .failed, some (msg 2)⟩,
         ⟨(registryAgent i).name, rid, 3, .failed, some (msg 3)⟩]
    ∧ agentTerminal (runAllRecords work false rid registry) (registryAgent i).name
        = some Status.failed
    ∧ ∀ j : Fin 4, i < j →
        recordsFor (runAllRecords work false rid registry) (registryAgent j).name
          = [⟨(registryAgent j).name, rid, 1, .skipped, none⟩]
        ∧ agentTerminal (runAllRecords work false rid registry) (registryAgent j).name
            = some Status.skipped
        ∧ ∀ k, EngineEvent.start (registryAgent j).name rid k
            ∉ runAll work false rid registry := by
  obtain ⟨w1, w2, w3, w4⟩ := registry_walk work rid
  fin_cases i
  · -- the failing agent is pattern_recognition
    have hpf : blockLast work patternRecognitionAgent rid = some Status.failed :=
      blockLast_allFail work patternRecognitionAgent rid msg rfl hf
    have hnot : ¬blockLast work patternRecognitionAgent rid = some Status.succeeded := by
      rw [hpf]
      exact by decide
    obtain ⟨-, hE2, hbi⟩ := w2.resolve_left (fun hc => absurd hc.1 hnot)
    obtain ⟨-, hE3, hab⟩ := w3.resolve_left (fun hc => absurd hc.1 hnot)
    obtain ⟨-, hE4, hie⟩ := w4.resolve_left (fun hc => absurd hc.1 hnot)
    have hpr' : recordsFor (runAllRecords work false rid registry) "pattern_recognition"
        = [⟨"pattern_recognition", rid, 1, .failed, some (msg 1)⟩,
           ⟨"pattern_recognition", rid, 2, .failed, some (msg 2)⟩,
           ⟨"pattern_recognition", rid, 3, .failed, some (msg 3)⟩] := by
      rw [w1]
      exact blockFor_allFail work patternRecognitionAgent rid msg rfl hf
    refine ⟨hpr', agentTerminal_of_three_failed _ _ rid msg hpr', ?_⟩
    intro j hj
    fin_cases j
    · exact absurd hj (by decide)
    · exact ⟨hbi, agentTerminal_of_skiprec _ _ rid hbi,
        start_notin_runAll work rid _
          (start_notin_ev_attempts (walkEv1_eq work rid) _ (by decide))
          (start_notin_ev_skip hE2 _) (start_notin_ev_skip hE3 _)
          (start_notin_ev_skip hE4 _)⟩
    · exact ⟨hab, agentTerminal_of_skiprec _ _ rid hab,
        start_notin_runAll work rid _
          (start_notin_ev_attempts (walkEv1_eq work rid) _ (by decide))
          (start_notin_ev_skip hE2 _) (start_notin_ev_skip hE3 _)
          (start_notin_ev_skip hE4 _)⟩
    · exact ⟨hie, agentTerminal_of_skiprec _ _ rid hie,
        start_notin_runAll work rid _
          (start_notin_ev_attempts (walkEv1_eq work rid) _ (by decide))
          (start_notin_ev_skip hE2 _) (start_notin_ev_skip hE3 _)
          (start_notin_ev_skip hE4 _)⟩
  · -- the failing agent is business_intelligence
    have hps : blockLast work patternRecognitionAgent rid = some Status.succeeded :=
      blockLast_allSuccess work patternRecognitionAgent rid rfl (hpre 0 (by decide))
    have hbf : blockLast work businessIntelligenceAgent rid = some Status.failed :=
      blockLast_allFail work businessIntelligenceAgent rid msg rfl hf
    have hnot : ¬blockLast work businessIntelligenceAgent rid = some Status.succeeded := by
      rw [hbf]
      exact by decide
    obtain ⟨-, hE2, hbi⟩ := w2.resolve_right (fun hc => absurd hps hc.1)
    obtain ⟨-, hE3, hab⟩ := w3.resolve_left (fun hc => absurd hc.2.1 hnot)
    obtain ⟨-, hE4, hie⟩ := w4.resolve_left (fun hc => absurd hc.2.1 hnot)
    have hbi' : recordsFor (runAllRecords work false rid registry) "business_intelligence"
        = [⟨"business_intelligence", rid, 1, .failed, some (msg 1)⟩,
           ⟨"business_intelligence", rid, 2, .failed, some (msg 2)⟩,
           ⟨"business_intelligence", rid, 3, .failed, some (msg 3)⟩] := by
      rw [hbi]
      exact blockFor_allFail work businessIntelligenceAgent rid msg rfl hf
    refine ⟨hbi', agentTerminal_of_three_failed _ _ rid msg hbi', ?_⟩
    intro j hj
    fin_cases j
    · exact absurd hj (by decide)
    · exact absurd hj (by decide)
    · exact ⟨hab, agentTerminal_of_skiprec _ _ rid hab,
        start_notin_runAll work rid _
          (start_notin_ev_attempts (walkEv1_eq work rid) _ (by decide))
          (start_notin_ev_attempts hE2 _ (by decide)) (start_notin_ev_skip hE3 _)
          (start_notin_ev_skip hE4 _)⟩
    · exact ⟨hie, agentTerminal_of_skiprec _ _ rid hie,
        start_notin_runAll work rid _
          (start_notin_ev_attempts (walkEv1_eq work rid) _ (by decide))
          (start_notin_ev_attempts hE2 _ (by decide)) (start_notin_ev_skip hE3 _)
          (start_notin_ev_skip hE4 _)⟩
  · -- the failing agent is ab_testing
    have hps : blockLast work patternRecognitionAgent rid = some Status.succeeded :=
      blockLast_allSuccess work patternRecognitionAgent rid rfl (hpre 0 (by decide))
    have hbs : blockLast work businessIntelligenceAgent rid = some Status.succeeded :=
      blockLast_allSuccess work businessIntelligenceAgent rid rfl (hpre 1 (by decide))
    have haf : blockLast work abTestingAgent rid = some Status.failed :=
      blockLast_allFail work abTestingAgent rid msg rfl hf
    have hnot : ¬blockLast work abTestingAgent rid = some Status.succeeded := by
      rw [haf]
      exact by decide
    obtain ⟨-, hE2, hbi⟩ := w2.resolve_right (fun hc => absurd hps hc.1)
    obtain ⟨-, -, hE3, hab⟩ := w3.resolve_right (fun hc => absurd ⟨hps, hbs⟩ hc.1)
    obtain ⟨-, hE4, hie⟩ := w4.resolve_left (fun hc => absurd hc.2.2.1 hnot)
    have hab' : recordsFor (runAllRecords work false rid registry) "ab_testing"
        = [⟨"ab_testing", rid, 1, .failed, some (msg 1)⟩,
           ⟨"ab_testing", rid, 2, .failed, some (msg 2)⟩,
           ⟨"ab_testing", rid, 3, .failed, some (msg 3)⟩] := by
      rw [hab]
      exact blockFor_allFail work abTestingAgent rid msg rfl hf
    refine ⟨hab', agentTerminal_of_three_failed _ _ rid msg hab', ?_⟩
    intro j hj
    fin_cases j
    · exact absurd hj (by decide)
    · exact absurd hj (by decide)
    · exact absurd hj (by decide)
    · exact ⟨hie, agentTerminal_of_skiprec _ _ rid hie,
        start_notin_runAll work rid _
          (start_notin_ev_attempts (walkEv1_eq work rid) _ (by decide))
          (start_notin_ev_attempts hE2 _ (by decide))
          (start_notin_ev_attempts hE3 _ (by decide))
          (start_notin_ev_skip hE4 _)⟩
  · -- the failing agent is insights_engine
    have hps : blockLast work patternRecognitionAgent rid = some Status.succeeded :=
      blockLast_allSuccess work patternRecognitionAgent rid rfl (hpre 0 (by decide))
    have hbs : blockLast work businessIntelligenceAgent rid = some Status.succeeded :=
      blockLast_allSuccess work businessIntelligenceAgent rid rfl (hpre 1 (by decide))
    have has : blockLast work abTestingAgent rid = some Status.succeeded :=
      blockLast_allSuccess work abTestingAgent rid rfl (hpre 2 (by decide))
    obtain ⟨-, -, -, hE4, hie⟩ := w4.resolve_right (fun hc => absurd ⟨hps, hbs, has⟩ hc.1)
    have hie' : recordsFor (runAllRecords work false rid registry) "insights_engine"
        = [⟨"insights_engine", rid, 1, .failed, some (msg 1)⟩,
           ⟨"insights_engine", rid, 2, .failed, some (msg 2)⟩,
           ⟨"insights_engine", rid, 3, .failed, some (msg 3)⟩] := by
      rw [hie]
      exact blockFor_allFail work insightsEngineAgent rid msg rfl hf
    refine ⟨hie', agentTerminal_of_three_failed _ _ rid msg hie', ?_⟩
    intro j hj
    fin_cases j <;> exact absurd hj (by decide)

/-- Witness for C2 with the first agent always failing in a concrete run. -/
theorem c2_retry_exhaustion_witness :
    recordsFor (runAllRecords (fun _ _ => AttemptResult.failure "boom") false 0 registry)
        "pattern_recognition"
      = [⟨"pattern_recognition", 0, 1, .failed, some "boom"⟩,
         ⟨"pattern_recognition", 0, 2, .failed, some "boom"⟩,
         ⟨"pattern_recognition", 0, 3, .failed, some "boom"⟩] :=
  (c2_retry_exhaustion (fun _ _ => AttemptResult.failure "boom") 0 0 (fun _ => "boom")
    (fun _ hj _ => absurd hj (Nat.not_lt_zero _)) (fun _ => rfl)).1

theorem overallStatus_spec (recs : List RunRecord) (agents : List AgentDescriptor) :
    (overallStatus recs agents = .succeeded
      ↔ ∀ a ∈ agents, agentTerminal recs a.name = some Status.succeeded)
    ∧ (overallStatus recs agents = .partlyFailed
      ↔ (¬(∀ a ∈ agents, agentTerminal recs a.name = some Status.succeeded)
          ∧ ∃ a ∈ agents, agentTerminal recs a.name = some Status.succeeded))
    ∧ (overallStatus recs agents = .failed
      ↔ (¬(∀ a ∈ agents, agentTerminal recs a.name = some Status.succeeded)
          ∧ ¬∃ a ∈ agents, agentTerminal recs a.name = some Status.succeeded)) := by
  rw [overallStatus]
  by_cases hall : agents.all
      (fun a => decide (agentTerminal recs a.name = some Status.succeeded)) = true
  · have hfa : ∀ a ∈ agents, agentTerminal recs a.name = some Status.succeeded :=
      fun a ha => of_decide_eq_true (List.all_eq_true.mp hall a ha)
    rw [if_pos hall]
    exact ⟨iff_of_true rfl hfa,
      iff_of_false (by intro h; cases h) (fun hc => hc.1 hfa),
      iff_of_false (by intro h; cases h) (fun hc => hc.1 hfa)⟩
  · have hnfa : ¬∀ a ∈ agents, agentTerminal recs a.name = some Status.succeeded :=
      fun hforall => hall (List.all_eq_true.mpr (fun a ha => decide_eq_true (hforall a ha)))
    rw [if_neg hall]
    by_cases hany : agents.any
        (fun a => decide (agentTerminal recs a.name = some Status.succeeded)) = true
    · have hex : ∃ a ∈ agents, agentTerminal recs a.name = some Status.succeeded := by
        rcases List.any_eq_true.mp hany with ⟨a, ha, hd⟩
        exact ⟨a, ha, of_decide_eq_true hd⟩
      rw [if_pos hany]
      exact ⟨iff_of_false (by intro h; cases h) (fun hfa => hnfa hfa),
        iff_of_true rfl ⟨hnfa, hex⟩,
        iff_of_false (by intro h; cases h) (fun hc => hc.2 hex)⟩
    · have hnex : ¬∃ a ∈ agents, agentTerminal recs a.name = some Status.succeeded := by
        rintro ⟨a, ha, hs⟩
        exact hany (List.any_eq_true.mpr ⟨a, ha, decide_eq_true hs⟩)
      rw [if_neg hany]
      exact ⟨iff_of_false (by intro h; cases h) hnfa,
        iff_of_false (by intro h; cases h) (fun hc => hnex hc.2),
        iff_of_true rfl ⟨hnfa, hnex⟩⟩

theorem agentTerminal_of_blockFor (recs : List RunRecord)
    (work : String → Nat → AttemptResult) (a : AgentDescriptor) (rid : Nat) (n : String)
    (_hname : a.name = n) (hrf : recordsFor recs n = blockFor work a rid) :
    agentTerminal recs n = blockLast work a rid :=
  agentTerminal_of_block recs n _ hrf
    (fun r hr => blockRecords_all_terminal work a rid a.maxRetries 1 r hr)

theorem blockLast_cases (work : String → Nat → AttemptResult) (a : AgentDescriptor)
    (rid : Nat) (hmr : a.maxRetries ≠ 0) :
    blockLast work a rid = some Status.succeeded
    ∨ blockLast work a rid = some Status.failed
    ∨ blockLast work a rid = some Status.timedOut := by
  obtain ⟨r, hl, hs⟩ := blockRecords_last work a rid a.maxRetries 1 hmr
  rw [blockLast, blockFor, hl]
  rcases hs with h | h | h
  · left
    show some r.status = some Status.succeeded
    rw [h]
  · right; left
    show some r.status = some Status.failed
    rw [h]
  · right; right
    show some r.status = some Status.timedOut
    rw [h]

theorem registry_terminal_total (work : String → Nat → AttemptResult) (rid : Nat) :
    ∀ a ∈ registry,
      agentTerminal (runAllRecords work false rid registry) a.name = some Status.succeeded
      ∨ agentTerminal (runAllRecords work false rid registry) a.name = some Status.failed
      ∨ agentTerminal (runAllRecords work false rid registry) a.name = some Status.timedOut
      ∨ agentTerminal (runAllRecords work false rid registry) a.name = some Status.skipped := by
  obtain ⟨w1, w2, w3, w4⟩ := registry_walk work rid
  intro a ha
  simp only [registry, List.mem_cons, List.not_mem_nil, or_false] at ha
  rcases ha with rfl | rfl | rfl | rfl
  · have hT := agentTerminal_of_blockFor _ work patternRecognitionAgent rid "pattern_recognition" rfl w1
    show agentTerminal _ "pattern_recognition" = _ ∨ agentTerminal _ "pattern_recognition" = _
      ∨ agentTerminal _ "pattern_recognition" = _ ∨ agentTerminal _ "pattern_recognition" = _
    rw [hT]
    rcases blockLast_cases work patternRecognitionAgent rid (by decide) with h | h | h
    · exact Or.inl h
    · exact Or.inr (Or.inl h)
    · exact Or.inr (Or.inr (Or.inl h))
  · show agentTerminal _ "business_intelligence" = _ ∨ agentTerminal _ "business_intelligence" = _
      ∨ agentTerminal _ "business_intelligence" = _ ∨ agentTerminal _ "business_intelligence" = _
    rcases w2 with ⟨-, -, hbi⟩ | ⟨-, -, hbi⟩
    · rw [agentTerminal_of_blockFor _ work businessIntelligenceAgent rid "business_intelligence" rfl hbi]
      rcases blockLast_cases work businessIntelligenceAgent rid (by decide) with h | h | h
      · exact Or.inl h
      · exact Or.inr (Or.inl h)
      · exact Or.inr (Or.inr (Or.inl h))
    · rw [agentTerminal_of_skiprec _ _ rid hbi]
      exact Or.inr (Or.inr (Or.inr rfl))
  · show agentTerminal _ "ab_testing" = _ ∨ agentTerminal _ "ab_testing" = _
      ∨ agentTerminal _ "ab_testing" = _ ∨ agentTerminal _ "ab_testing" = _
    rcases w3 with ⟨-, -, -, hab⟩ | ⟨-, -, hab⟩
    · rw [agentTerminal_of_blockFor _ work abTestingAgent rid "ab_testing" rfl hab]
      rcases blockLast_cases work abTestingAgent rid (by decide) with h | h | h
      · exact Or.inl h
      · exact Or.inr (Or.inl h)
      · exact Or.inr (Or.inr (Or.inl h))
    · rw [agentTerminal_of_skiprec _ _ rid hab]
      exact Or.inr (Or.inr (Or.inr rfl))
  · show agentTerminal _ "insights_engine" = _ ∨ agentTerminal _ "insights_engine" = _
      ∨ agentTerminal _ "insights_engine" = _ ∨ agentTerminal _ "insights_engine" = _
    rcases w4 with ⟨-, -, -, -, hie⟩ | ⟨-, -, hie⟩
    · rw [agentTerminal_of_blockFor _ work insightsEngineAgent rid "insights_engine" rfl hie]
      rcases blockLast_cases work insightsEngineAgent rid (by decide) with h | h | h
      · exact Or.inl h
      · exact Or.inr (Or.inl h)
      · exact Or.inr (Or.inr (Or.inl h))
    · rw [agentTerminal_of_skiprec _ _ rid hie]
      exact Or.inr (Or.inr (Or.inr rfl))

/-- C4: for every completed `run-all` of the registry, the overall
status is Succeeded iff all agents are terminal-Succeeded;
PartiallyFailed iff at least one agent Succeeded and at least one is
Failed, TimedOut or Skipped; and Failed iff the first agent in
dependency order failed (or timed out) and nothing downstream ran. -/
theorem c4_overall_outcome (work : String → Nat → AttemptResult) (rid : Nat) :
    (overallStatus (runAllRecords work false rid registry) registry = .succeeded
      ↔ ∀ a ∈ registry,
          agentTerminal (runAllRecords work false rid registry) a.name
            = some Status.succeeded)
    ∧ (overallStatus (runAllRecords work false rid registry) registry = .partlyFailed
      ↔ ((∃ a ∈ registry,
            agentTerminal (runAllRecords work false rid registry) a.name
              = some Status.succeeded)
          ∧ ∃ a ∈ registry,
              agentTerminal (runAllRecords work false rid registry) a.name
                  = some Status.failed
              ∨ agentTerminal (runAllRecords work false rid registry) a.name
                  = some Status.timedOut
              ∨ agentTerminal (runAllRecords work false rid registry) a.name
                  = some Status.skipped))
    ∧ (overallStatus (runAllRecords work false rid registry) registry = .failed
      ↔ ((agentTerminal (runAllRecords work false rid registry) "pattern_recognition"
            = some Status.failed
          ∨ agentTerminal (runAllRecords work false rid registry) "pattern_recognition"
            = some Status.timedOut)
          ∧ ∀ n ∈ ["business_intelligence", "ab_testing", "insights_engine"],
              ∀ k, EngineEvent.start n rid k ∉ runAll work false rid registry)) := by
  obtain ⟨hS, hP, hF⟩ := overallStatus_spec (runAllRecords work false rid registry) registry
  have htot := registry_terminal_total work rid
  refine ⟨hS, ?_, ?_⟩
  · rw [hP]
    constructor
    · rintro ⟨hnall, hex⟩
      refine ⟨hex, ?_⟩
      by_contra hnone
      push_neg at hnone
      apply hnall
      intro a ha
      rcases htot a ha with h | h | h | h
      · exact h
      · exact absurd h (hnone a ha).1
      · exact absurd h (hnone a ha).2.1
      · exact absurd h (hnone a ha).2.2
    · rintro ⟨hex, ⟨b, hb, hbad⟩⟩
      refine ⟨?_, hex⟩
      intro hfa
      have hsb := hfa b hb
      rcases hbad with h | h | h <;> (rw [hsb] at h; exact absurd h (by decide))
  · rw [hF]
    obtain ⟨w1, w2, w3, w4⟩ := registry_walk work rid
    have hprT : agentTerminal (runAllRecords work false rid registry) "pattern_recognition"
        = blockLast work patternRecognitionAgent rid :=
      agentTerminal_of_blockFor _ work patternRecognitionAgent rid "pattern_recognition"
        rfl w1
    constructor
    · rintro ⟨hnall, hnex⟩
      have hns1 : ¬blockLast work patternRecognitionAgent rid = some Status.succeeded := by
        intro hs1
        exact hnex ⟨patternRecognitionAgent, List.mem_cons_self _ _, hprT.trans hs1⟩
      obtain ⟨-, hE2, hbi⟩ := w2.resolve_left (fun hc => hns1 hc.1)
      obtain ⟨-, hE3, hab⟩ := w3.resolve_left (fun hc => hns1 hc.1)
      obtain ⟨-, hE4, hie⟩ := w4.resolve_left (fun hc => hns1 hc.1)
      constructor
      · rw [hprT]
        rcases blockLast_cases work patternRecognitionAgent rid (by decide) with h | h | h
        · exact absurd h hns1
        · exact Or.inl h
        · exact Or.inr h
      · intro n hn
        simp only [List.mem_cons, List.not_mem_nil, or_false] at hn
        rcases hn with rfl | rfl | rfl
        · exact start_notin_runAll work rid _
            (start_notin_ev_attempts (walkEv1_eq work rid) _ (by decide))
            (start_notin_ev_skip hE2 _) (start_notin_ev_skip hE3 _)
            (start_notin_ev_skip hE4 _)
        · exact start_notin_runAll work rid _
            (start_notin_ev_attempts (walkEv1_eq work rid) _ (by decide))
            (start_notin_ev_skip hE2 _) (start_notin_ev_skip hE3 _)
            (start_notin_ev_skip hE4 _)
        · exact start_notin_runAll work rid _
            (start_notin_ev_attempts (walkEv1_eq work rid) _ (by decide))
            (start_notin_ev_skip hE2 _) (start_notin_ev_skip hE3 _)
            (start_notin_ev_skip hE4 _)
    · rintro ⟨hpr_bad, -⟩
      have hns1 : ¬blockLast work patternRecognitionAgent rid = some Status.succeeded := by
        intro hs1
        have hsucc := hprT.trans hs1
        rcases hpr_bad with h | h <;> (rw [hsucc] at h; exact absurd h (by decide))
      obtain ⟨-, hE2, hbi⟩ := w2.resolve_left (fun hc => hns1 hc.1)
      obtain ⟨-, hE3, hab⟩ := w3.resolve_left (fun hc => hns1 hc.1)
      obtain ⟨-, hE4, hie⟩ := w4.resolve_left (fun hc => hns1 hc.1)
      have hbiT := agentTerminal_of_skiprec _ _ rid hbi
      have habT := agentTerminal_of_skiprec _ _ rid hab
      have hieT := agentTerminal_of_skiprec _ _ rid hie
      constructor
      · intro hfa
        have hsucc : agentTerminal (runAllRecords work false rid registry)
            "pattern_recognition" = some Status.succeeded :=
          hfa patternRecognitionAgent (List.mem_cons_self _ _)
        rcases hpr_bad with h | h <;> (rw [hsucc] at h; exact absurd h (by decide))
      · rintro ⟨b, hb, hsb⟩
        simp only [registry, List.mem_cons, List.not_mem_nil, or_false] at hb
        rcases hb with rfl | rfl | rfl | rfl
        · have hsb' : agentTerminal (runAllRecords work false rid registry)
              "pattern_recognition" = some Status.succeeded := hsb
          rcases hpr_bad with h | h <;> (rw [hsb'] at h; exact absurd h (by decide))
        · have hsb' : agentTerminal (runAllRecords work false rid registry)
              "business_intelligence" = some Status.succeeded := hsb
          rw [hbiT] at hsb'
          exact absurd hsb' (by decide)
        · have hsb' : agentTerminal (runAllRecords work false rid registry)
              "ab_testing" = some Status.succeeded := hsb
          rw [habT] at hsb'
          exact absurd hsb' (by decide)
        · have hsb' : agentTerminal (runAllRecords work false rid registry)
              "insights_engine" = some Status.succeeded := hsb
          rw [hieT] at hsb'
          exact absurd hsb' (by decide)

theorem start_mem_attemptEvents (work : String → Nat → AttemptResult)
    (a : AgentDescriptor) (rid rem : Nat) :
    EngineEvent.start a.name rid 1 ∈ attemptEvents work a rid 1 (rem + 1) := by
  rw [attemptEvents]
  exact List.mem_cons_self _ _

theorem runAll_forced_decomp (work : String → Nat → AttemptResult) (rid : Nat) :
    runAll work true rid registry =
      attemptEvents work patternRecognitionAgent rid 1 3 ++
        (attemptEvents work businessIntelligenceAgent rid 1 3 ++
          (attemptEvents work abTestingAgent rid 1 3 ++
            (attemptEvents work insightsEngineAgent rid 1 3 ++ []))) := rfl

theorem forced_run (work : String → Nat → AttemptResult) (rid : Nat) :
    ∀ (agents : List AgentDescriptor) (recs : List RunRecord),
      (∀ a ∈ agents, recordsFor recs a.name = []) →
      List.Pairwise (fun x y => x.name ≠ y.name) agents →
      ∀ a ∈ agents,
        recordsFor (applyEvents recs (runAllFrom work true rid agents recs)) a.name
          = blockFor work a rid := by
  intro agents
  induction agents with
  | nil =>
      intro recs _ _ a ha
      exact absurd ha (List.not_mem_nil a)
  | cons b rest ih =>
      intro recs hnil hpw a ha
      have hsplit : applyEvents recs (runAllFrom work true rid (b :: rest) recs)
          = applyEvents (applyEvents recs (attemptEvents work b rid 1 b.maxRetries))
              (runAllFrom work true rid rest
                (applyEvents recs (attemptEvents work b rid 1 b.maxRetries))) := by
        rw [runAllFrom, applyEvents_append]
        rfl
      rcases List.mem_cons.mp ha with rfl | ha'
      · rw [hsplit]
        have h1 : recordsFor (applyEvents recs (attemptEvents work a rid 1 a.maxRetries))
            a.name = blockFor work a rid :=
          (block_append work a rid recs a.name rfl a.maxRetries
            (hnil a (List.mem_cons_self a rest))).1
        have huntouched := recordsFor_applyEvents_untouched
          (applyEvents recs (attemptEvents work a rid 1 a.maxRetries))
          (runAllFrom work true rid rest
            (applyEvents recs (attemptEvents work a rid 1 a.maxRetries)))
          a.name
          (by
            intro e he
            rcases eventAgent_runAllFrom work true rid rest _ e he with ⟨c, hc, hce⟩
            rw [hce]
            exact fun hh => (List.pairwise_cons.mp hpw).1 c hc hh.symm)
        rw [huntouched, h1]
      · rw [hsplit]
        apply ih (applyEvents recs (attemptEvents work b rid 1 b.maxRetries)) ?_
          (List.pairwise_cons.mp hpw).2 a ha'
        intro c hc
        rw [attempt_untouched work b rid b.maxRetries recs c.name
          (fun hh => (List.pairwise_cons.mp hpw).1 c hc hh.symm)]
        exact hnil c (List.mem_cons.mpr (Or.inr hc))

/-- C5: a forced run (`--force`) invokes every agent's unit of work
regardless of dependencies (each agent's first attempt is started),
enforces the per-agent retry/timeout policy as normal (each agent's
records are exactly its attempt block), does not bypass the
at-most-one-Running invariant, and the CLI maps `--force` to the
force flag it passes to the engine. -/
theorem c5_force_semantics (work : String → Nat → AttemptResult) (rid : Nat) :
    (∀ a ∈ registry, EngineEvent.start a.name rid 1 ∈ runAll work true rid registry)
    ∧ (∀ a ∈ registry,
        recordsFor (runAllRecords work true rid registry) a.name = blockFor work a rid)
    ∧ (∀ s ∈ traceStates [] (runAll work true rid registry),
        ∀ n r', runningCount s n r' ≤ 1)
    ∧ parseArgs ["run-all", "--force"] {} = .ok { command := "run-all", force := true } := by
  refine ⟨?_, ?_, ?_, rfl⟩
  · intro a ha
    simp only [registry, List.mem_cons, List.not_mem_nil, or_false] at ha
    rw [runAll_forced_decomp]
    rcases ha with rfl | rfl | rfl | rfl
    · exact List.mem_append.mpr
        (Or.inl (start_mem_attemptEvents work patternRecognitionAgent rid 2))
    · exact List.mem_append.mpr (Or.inr (List.mem_append.mpr
        (Or.inl (start_mem_attemptEvents work businessIntelligenceAgent rid 2))))
    · exact List.mem_append.mpr (Or.inr (List.mem_append.mpr (Or.inr (List.mem_append.mpr
        (Or.inl (start_mem_attemptEvents work abTestingAgent rid 2))))))
    · exact List.mem_append.mpr (Or.inr (List.mem_append.mpr (Or.inr (List.mem_append.mpr
        (Or.inr (List.mem_append.mpr
          (Or.inl (start_mem_attemptEvents work insightsEngineAgent rid 2))))))))
  · intro a ha
    exact forced_run work rid registry [] (fun b _ => rfl) (by decide) a ha
  · have hz : ∀ n r', runningCount ([] : List RunRecord) n r' ≤ 1 := by
      intro n r'
      simp [runningCount]
    have hz0 : ∀ n, runningCount ([] : List RunRecord) n rid = 0 := by
      intro n
      simp [runningCount]
    exact (balanced_invariant (balancedAt_runAllFrom work true rid registry []) [] hz hz0).1

/-! ### The backoff schedule -/

/-- The retry delays the engine waits for one agent, in trace order. -/
def waitDelays (evs : List EngineEvent) (n : String) : List Nat :=
  evs.filterMap (fun e => match e with
    | .wait m d => if m = n then some d else none
    | _ => none)

theorem waitDelays_nil (n : String) : waitDelays [] n = [] := rfl

theorem waitDelays_cons_start (n' : String) (rid k : Nat) (evs : List EngineEvent)
    (n : String) :
    waitDelays (.start n' rid k :: evs) n = waitDelays evs n := rfl

theorem waitDelays_cons_finish (n' : String) (rid : Nat) (res : AttemptResult)
    (evs : List EngineEvent) (n : String) :
    waitDelays (.finish n' rid res :: evs) n = waitDelays evs n := rfl

theorem waitDelays_cons_wait_self (n : String) (d : Nat) (evs : List EngineEvent) :
    waitDelays (.wait n d :: evs) n = d :: waitDelays evs n := by
  simp [waitDelays, List.filterMap_cons]

theorem waitDelays_attempt (work : String → Nat → AttemptResult) (a : AgentDescriptor)
    (rid : Nat) :
    ∀ (fuel k₀ : Nat), ∃ m, m ≤ fuel - 1 ∧
      waitDelays (attemptEvents work a rid k₀ fuel) a.name
        = (List.range m).map (fun j => backoffDelay a (k₀ + j)) := by
  intro fuel
  induction fuel with
  | zero =>
      intro k₀
      exact ⟨0, Nat.le_refl 0, rfl⟩
  | succ rem ih =>
      intro k₀
      cases hres : work a.name k₀ with
      | success =>
          refine ⟨0, Nat.zero_le _, ?_⟩
          rw [attemptEvents_eq_success work a rid k₀ rem hres]
          rfl
      | failure m =>
          cases rem with
          | zero =>
              refine ⟨0, Nat.zero_le _, ?_⟩
              rw [attemptEvents_eq_failure_last work a rid k₀ m hres]
              rfl
          | succ r =>
              obtain ⟨m', hm', heq⟩ := ih (k₀ + 1)
              refine ⟨m' + 1, by omega, ?_⟩
              rw [attemptEvents_eq_failure_cont work a rid k₀ r m hres,
                waitDelays_cons_start, waitDelays_cons_finish, waitDelays_cons_wait_self,
                heq, List.range_succ_eq_map, List.map_cons, List.map_map]
              congr 1
              apply List.map_congr_left
              intro j _
              show backoffDelay a (k₀ + 1 + j) = backoffDelay a (k₀ + (j + 1))
              congr 1
              omega
      | timedOut =>
          cases rem with
          | zero =>
              refine ⟨0, Nat.zero_le _, ?_⟩
              rw [attemptEvents_eq_timedOut_last work a rid k₀ hres]
              rfl
          | succ r =>
              obtain ⟨m', hm', heq⟩ := ih (k₀ + 1)
              refine ⟨m' + 1, by omega, ?_⟩
              rw [attemptEvents_eq_timedOut_cont work a rid k₀ r hres,
                waitDelays_cons_start, waitDelays_cons_finish, waitDelays_cons_wait_self,
                heq, List.range_succ_eq_map, List.map_cons, List.map_map]
              congr 1
              apply List.map_congr_left
              intro j _
              show backoffDelay a (k₀ + 1 + j) = backoffDelay a (k₀ + (j + 1))
              congr 1
              omega

theorem backoffDelay_mono (a : AgentDescriptor) (hfac : 1 ≤ a.backoffFactor)
    (k k' : Nat) (hk : k ≤ k') : backoffDelay a k ≤ backoffDelay a k' := by
  rw [backoffDelay, backoffDelay]
  exact Nat.mul_le_mul_left a.backoffBase
    (Nat.pow_le_pow_right hfac (by omega))

theorem chain_le_map_range (f : Nat → Nat) (hf : ∀ j, f j ≤ f (j + 1)) :
    ∀ m, List.Chain' (· ≤ ·) ((List.range m).map f) := by
  intro m
  rw [List.chain'_iff_get]
  intro i hi
  simp only [List.get_eq_getElem, List.getElem_map, List.getElem_range]
  exact hf i

/-- C3: the engine's retry delays for one agent in one run follow the
backoff schedule: the wait after attempt `1 + j` equals
`backoffBase * backoffFactor ^ ((1 + j) - 1)`, waits occur only for
attempts below `maxRetries`, and — the schedule being exponential with
a factor of at least 1 — the inter-attempt delays are monotonically
non-decreasing in the attempt number. -/
theorem c3_backoff_monotone (work : String → Nat → AttemptResult) (a : AgentDescriptor)
    (rid : Nat) (hfac : 1 ≤ a.backoffFactor) :
    ∃ m, m ≤ a.maxRetries - 1
      ∧ waitDelays (attemptEvents work a rid 1 a.maxRetries) a.name
          = (List.range m).map (fun j => a.backoffBase * a.backoffFactor ^ ((1 + j) - 1))
      ∧ List.Chain' (· ≤ ·)
          (waitDelays (attemptEvents work a rid 1 a.maxRetries) a.name) := by
  obtain ⟨m, hm, heq⟩ := waitDelays_attempt work a rid a.maxRetries 1
  refine ⟨m, hm, ?_, ?_⟩
  · rw [heq]
    rfl
  · rw [heq]
    exact chain_le_map_range _
      (fun j => backoffDelay_mono a hfac (1 + j) (1 + (j + 1)) (by omega)) m

/-- Witness for C3: the always-failing first registry agent waits 60ms
then 120ms, a non-decreasing schedule. -/
theorem c3_backoff_monotone_witness :
    ∃ m, m ≤ patternRecognitionAgent.maxRetries - 1
      ∧ waitDelays (attemptEvents (fun _ _ => AttemptResult.failure "x")
            patternRecognitionAgent 0 1 patternRecognitionAgent.maxRetries)
            patternRecognitionAgent.name
          = (List.range m).map (fun j => patternRecognitionAgent.backoffBase *
              patternRecognitionAgent.backoffFactor ^ ((1 + j) - 1))
      ∧ List.Chain' (· ≤ ·)
          (waitDelays (attemptEvents (fun _ _ => AttemptResult.failure "x")
            patternRecognitionAgent 0 1 patternRecognitionAgent.maxRetries)
            patternRecognitionAgent.name) :=
  c3_backoff_monotone (fun _ _ => AttemptResult.failure "x") patternRecognitionAgent 0
    (by decide)

/-! ### Exit codes and the run-agent guard of `run_pipeline.sh` -/

/-- C6: a `run-all` CLI invocation passing the pre-flight checks exits
with code 0 when the pipeline outcome is full success, and with a
non-zero code whenever some agent's terminal status is Failed or
TimedOut (the pipeline outcome is then not Succeeded). -/
theorem c6_exit_codes (work : String → Nat → AttemptResult) (rid : Nat)
    (args : List String) (s : ParseState)
    (hp : parseArgs args {} = Except.ok s) (hcmd : s.command = "run-all") :
    (overallStatus (runAllRecords work s.force rid registry) registry = .succeeded →
      (scriptRun work rid true true true args).exitCode = 0)
    ∧ ((∃ a ∈ registry,
          agentTerminal (runAllRecords work s.force rid registry) a.name
              = some Status.failed
          ∨ agentTerminal (runAllRecords work s.force rid registry) a.name
              = some Status.timedOut) →
      (scriptRun work rid true true true args).exitCode ≠ 0) := by
  have hscript : scriptRun work rid true true true args =
      (if runnerExitCode work s.force rid = 0 then
        ⟨0, true, ["[SUCCESS] Pipeline completed successfully"]⟩
      else ⟨runnerExitCode work s.force rid, true, ["[ERROR] Pipeline execution failed"]⟩) := by
    rw [scriptRun, hp]
    simp [hcmd]
  constructor
  · intro hsucc
    have hrun : runnerExitCode work s.force rid = 0 := by
      rw [runnerExitCode, if_pos hsucc]
    rw [hscript, if_pos hrun]
  · rintro ⟨a, ha, hbad⟩
    have hnot : overallStatus (runAllRecords work s.force rid registry) registry
        ≠ .succeeded := by
      intro hs
      have hall := (overallStatus_spec (runAllRecords work s.force rid registry) registry).1.mp hs
      have hsa := hall a ha
      rcases hbad with h | h <;> (rw [hsa] at h; exact absurd h (by decide))
    have hrun : runnerExitCode work s.force rid = 1 := by
      rw [runnerExitCode, if_neg hnot]
    rw [hscript, if_neg (by rw [hrun]; exact one_ne_zero), hrun]
    exact one_ne_zero

/-- Witness for C6 at the plain `run-all` invocation with an
always-succeeding unit of work. -/
theorem c6_exit_codes_witness :
    (overallStatus (runAllRecords (fun _ _ => AttemptResult.success) false 0 registry)
        registry = .succeeded →
      (scriptRun (fun _ _ => AttemptResult.success) 0 true true true ["run-all"]).exitCode = 0)
    ∧ ((∃ a ∈ registry,
          agentTerminal (runAllRecords (fun _ _ => AttemptResult.success) false 0 registry)
              a.name = some Status.failed
          ∨ agentTerminal (runAllRecords (fun _ _ => AttemptResult.success) false 0 registry)
              a.name = some Status.timedOut) →
      (scriptRun (fun _ _ => AttemptResult.success) 0 true true true ["run-all"]).exitCode ≠ 0) :=
  c6_exit_codes (fun _ _ => AttemptResult.success) 0 ["run-all"]
    { command := "run-all" } rfl rfl

/-- C10: a `run-agent` invocation without an `--agent` value, with the
pre-flight checks passing, exits with status 1, prints the line naming
the four available agents, and never spawns `pipeline_runner.py`. -/
theorem c10_run_agent_missing_name (work : String → Nat → AttemptResult) (rid : Nat)
    (args : List String) (s : ParseState)
    (hp : parseArgs args {} = Except.ok s) (hcmd : s.command = "run-agent")
    (hag : s.agentName = "") :
    (scriptRun work rid true true true args).exitCode = 1
    ∧ (scriptRun work rid true true true args).runnerInvoked = false
    ∧ "Available agents: pattern_recognition, business_intelligence, ab_testing, insights_engine"
        ∈ (scriptRun work rid true true true args).outputLines := by
  have hscript : scriptRun work rid true true true args = ⟨1, false, missingAgentLines⟩ := by
    rw [scriptRun, hp]
    simp [hcmd, hag]
  rw [hscript]
  refine ⟨rfl, rfl, ?_⟩
  rw [missingAgentLines]
  exact List.mem_cons.mpr (Or.inr (List.mem_singleton.mpr rfl))

/-- Witness for C10 at the bare `run-agent` invocation. -/
theorem c10_run_agent_missing_name_witness :
    (scriptRun (fun _ _ => AttemptResult.success) 0 true true true ["run-agent"]).exitCode = 1
    ∧ (scriptRun (fun _ _ => AttemptResult.success) 0 true true true
        ["run-agent"]).runnerInvoked = false
    ∧ "Available agents: pattern_recognition, business_intelligence, ab_testing, insights_engine"
        ∈ (scriptRun (fun _ _ => AttemptResult.success) 0 true true true
            ["run-agent"]).outputLines :=
  c10_run_agent_missing_name (fun _ _ => AttemptResult.success) 0 ["run-agent"]
    { command := "run-agent" } rfl rfl rfl

/-! ### The tokens the CLI accepts -/

/-- The boolean flags of the parsing loop. -/
def boolFlagTokens : List String := ["--force", "--json"]

/-- The flags of the parsing loop that consume a value. -/
def valueFlagTokens : List String := ["--agent", "--config", "--interval"]

/-- Argument lists the parsing loop of `run_pipeline.sh` walks without
an error: any mix of command words, boolean flags, and value flags
each followed by its value. -/
inductive ArgsAccepted : List String → Prop where
  | nil : ArgsAccepted []
  | cmd {t : String} {rest : List String} :
      t ∈ commandTokens → ArgsAccepted rest → ArgsAccepted (t :: rest)
  | boolFlag {t : String} {rest : List String} :
      t ∈ boolFlagTokens → ArgsAccepted rest → ArgsAccepted (t :: rest)
  | valueFlag {t v : String} {rest : List String} :
      t ∈ valueFlagTokens → ArgsAccepted rest → ArgsAccepted (t :: v :: rest)

theorem parseArgs_cons (arg : String) (rest : List String) (s : ParseState) :
    parseArgs (arg :: rest) s =
      if arg ∈ commandTokens then parseArgs rest { s with command := arg }
      else if arg = "--agent" then
        match rest with
        | v :: rest' => parseArgs rest' { s with agentName := v }
        | [] => .error "shift count out of range"
      else if arg = "--force" then parseArgs rest { s with force := true }
      else if arg = "--config" then
        match rest with
        | v :: rest' => parseArgs rest' { s with configFile := v }
        | [] => .error "shift count out of range"
      else if arg = "--json" then parseArgs rest { s with jsonOutput := true }
      else if arg = "--interval" then
        match rest with
        | v :: rest' => parseArgs rest' { s with monitorInterval := v }
        | [] => .error "shift count out of range"
      else .error ("Unknown option: " ++ arg) := by
  rw [parseArgs.eq_def]

theorem parseArgs_accepted_ok {args : List String} (h : ArgsAccepted args) :
    ∀ s : ParseState, ∃ s', parseArgs args s = Except.ok s' := by
  induction h with
  | nil => exact fun s => ⟨s, rfl⟩
  | @cmd t rest ht _ ih =>
      intro s
      obtain ⟨s', hs'⟩ := ih { s with command := t }
      exact ⟨s', by rw [parseArgs_cons, if_pos ht]; exact hs'⟩
  | @boolFlag t rest ht _ ih =>
      intro s
      fin_cases ht
      · obtain ⟨s', hs'⟩ := ih { s with force := true }
        exact ⟨s', by
          rw [parseArgs_cons, if_neg (by decide), if_neg (by decide), if_pos rfl]
          exact hs'⟩
      · obtain ⟨s', hs'⟩ := ih { s with jsonOutput := true }
        exact ⟨s', by
          rw [parseArgs_cons, if_neg (by decide), if_neg (by decide), if_neg (by decide),
            if_neg (by decide), if_pos rfl]
          exact hs'⟩
  | @valueFlag t v rest ht _ ih =>
      intro s
      fin_cases ht
      · obtain ⟨s', hs'⟩ := ih { s with agentName := v }
        exact ⟨s', by
          rw [parseArgs_cons, if_neg (by decide), if_pos rfl]
          exact hs'⟩
      · obtain ⟨s', hs'⟩ := ih { s with configFile := v }
        exact ⟨s', by
          rw [parseArgs_cons, if_neg (by decide), if_neg (by decide), if_neg (by decide),
            if_pos rfl]
          exact hs'⟩
      · obtain ⟨s', hs'⟩ := ih { s with monitorInterval := v }
        exact ⟨s', by
          rw [parseArgs_cons, if_neg (by decide), if_neg (by decide), if_neg (by decide),
            if_neg (by decide), if_neg (by decide), if_pos rfl]
          exact hs'⟩

theorem parseArgs_ok_accepted :
    ∀ (n : Nat) (args : List String), args.length ≤ n →
      ∀ s s' : ParseState, parseArgs args s = Except.ok s' → ArgsAccepted args := by
  intro n
  induction n with
  | zero =>
      intro args hlen s s' h
      cases args with
      | nil => exact .nil
      | cons t rest => simp at hlen
  | succ n ih =>
      intro args hlen s s' h
      cases args with
      | nil => exact .nil
      | cons t rest =>
          rw [parseArgs_cons] at h
          by_cases h1 : t ∈ commandTokens
          · rw [if_pos h1] at h
            exact .cmd h1 (ih rest (by simp at hlen; omega) _ _ h)
          · rw [if_neg h1] at h
            by_cases h2 : t = "--agent"
            · rw [if_pos h2] at h
              cases rest with
              | nil => exact Except.noConfusion h
              | cons v rest' =>
                  subst h2
                  exact .valueFlag (by decide) (ih rest' (by simp at hlen; omega) _ _ h)
            · rw [if_neg h2] at h
              by_cases h3 : t = "--force"
              · rw [if_pos h3] at h
                subst h3
                exact .boolFlag (by decide) (ih rest (by simp at hlen; omega) _ _ h)
              · rw [if_neg h3] at h
                by_cases h4 : t = "--config"
                · rw [if_pos h4] at h
                  cases rest with
                  | nil => exact Except.noConfusion h
                  | cons v rest' =>
                      subst h4
                      exact .valueFlag (by decide) (ih rest' (by simp at hlen; omega) _ _ h)
                · rw [if_neg h4] at h
                  by_cases h5 : t = "--json"
                  · rw [if_pos h5] at h
                    subst h5
                    exact .boolFlag (by decide) (ih rest (by simp at hlen; omega) _ _ h)
                  · rw [if_neg h5] at h
                    by_cases h6 : t = "--interval"
                    · rw [if_pos h6] at h
                      cases rest with
                      | nil => exact Except.noConfusion h
                      | cons v rest' =>
                          subst h6
                          exact .valueFlag (by decide)
                            (ih rest' (by simp at hlen; omega) _ _ h)
                    · rw [if_neg h6] at h
                      exact Except.noConfusion h

theorem parseArgs_unknown_rejected (t : String)
    (h : t ∉ commandTokens ++ ["--agent", "--force", "--config", "--json", "--interval"])
    (rest : List String) (s : ParseState) :
    parseArgs (t :: rest) s = .error ("Unknown option: " ++ t) := by
  have hcmd : t ∉ commandTokens := fun hm => h (List.mem_append.mpr (Or.inl hm))
  have hagent : ¬t = "--agent" :=
    fun he => h (by rw [he]; exact List.mem_append.mpr (Or.inr (by decide)))
  have hforce : ¬t = "--force" :=
    fun he => h (by rw [he]; exact List.mem_append.mpr (Or.inr (by decide)))
  have hconfig : ¬t = "--config" :=
    fun he => h (by rw [he]; exact List.mem_append.mpr (Or.inr (by decide)))
  have hjson : ¬t = "--json" :=
    fun he => h (by rw [he]; exact List.mem_append.mpr (Or.inr (by decide)))
  have hinterval : ¬t = "--interval" :=
    fun he => h (by rw [he]; exact List.mem_append.mpr (Or.inr (by decide)))
  rw [parseArgs_cons, if_neg hcmd, if_neg hagent, if_neg hforce, if_neg hconfig,
    if_neg hjson, if_neg hinterval]

/-- Counterexample for C7 as stated: the token `test` is not among the
five commands (nor the flags) the claim lists, yet the parsing loop of
`run_pipeline.sh` accepts it without an error. -/
theorem c7_counterexample_test_token :
    (parseArgs ["test"] {}).isOk = true
    ∧ "test" ∉ ["run-all", "run-agent", "status", "monitor", "health-check",
        "--agent", "--force", "--config", "--json", "--interval"] := by
  exact ⟨rfl, by decide⟩

/-- C7 amended: the CLI accepts exactly the commands `run-all`,
`run-agent`, `status`, `monitor`, `health-check`, `test` and `help`,
together with the flags `--force` and `--json` and the value-taking
flags `--agent`, `--config` and `--interval`; every other token is
rejected with an `Unknown option` error. -/
theorem c7_cli_tokens :
    (∀ (args : List String) (s : ParseState),
        (∃ s', parseArgs args s = Except.ok s') ↔ ArgsAccepted args)
    ∧ (∀ t, t ∉ commandTokens ++ ["--agent", "--force", "--config", "--json", "--interval"] →
        ∀ (rest : List String) (s : ParseState),
          parseArgs (t :: rest) s = .error ("Unknown option: " ++ t)) := by
  constructor
  · intro args s
    constructor
    · rintro ⟨s', hs'⟩
      exact parseArgs_ok_accepted args.length args (Nat.le_refl _) s s' hs'
    · intro h
      exact parseArgs_accepted_ok h s
  · exact parseArgs_unknown_rejected

/-! ### The ingestion handler claims -/

/-- C8: `POST /api/track` responds 400 and attempts no BigQuery insert
exactly when the body's `events` field is missing (falsy), not an
array, or an empty array; a non-empty array whose insert succeeds gets
a 200 response with `success: true` and `eventsProcessed` equal to the
number of submitted events. -/
theorem c8_track_validation (body : TrackBody) (now : String)
    (ins : Except String Unit) :
    (((handleTrack body now ins).status = 400
        ∧ (handleTrack body now ins).insertedRows = none)
      ↔ (body.events = .missing ∨ body.events = .nonArray ∨ body.events = .arr []))
    ∧ (∀ evs : List TrackEvent, body.events = .arr evs → evs ≠ [] →
        ins = Except.ok () →
        (handleTrack body now ins).status = 200
        ∧ (handleTrack body now ins).success = true
        ∧ (handleTrack body now ins).eventsProcessed = some evs.length) := by
  constructor
  · cases hev : body.events with
    | missing => simp [handleTrack, hev]
    | nonArray => simp [handleTrack, hev]
    | arr evs =>
        by_cases hlen : evs.length = 0
        · have hnil : evs = [] := List.length_eq_zero.mp hlen
          subst hnil
          simp [handleTrack, hev]
        · have hne : evs ≠ [] := fun hn => hlen (by rw [hn]; rfl)
          cases ins with
          | ok u =>
              cases u
              simp [handleTrack, hev, hlen, hne]
          | error m =>
              simp [handleTrack, hev, hlen, hne]
  · intro evs hev hne hins
    subst hins
    have hlen : ¬evs.length = 0 := fun h => hne (List.length_eq_zero.mp h)
    simp [handleTrack, hev, hlen]

/-- Witness for C8: a one-event body with a successful insert gets a
200 with one event processed, and an empty-events body gets a 400. -/
theorem c8_track_validation_witness :
    (handleTrack ⟨.arr [⟨none, none, none, none, none, none, none, none, none, none,
        none, none, none, none, none, none, none⟩], none, none, none⟩ "t"
      (Except.ok ())).status = 200
    ∧ (handleTrack ⟨.arr [], none, none, none⟩ "t" (Except.ok ())).status = 400 :=
  ⟨((c8_track_validation ⟨.arr [⟨none, none, none, none, none, none, none, none, none,
      none, none, none, none, none, none, none, none⟩], none, none, none⟩ "t"
      (Except.ok ())).2 _ rfl (by decide) rfl).1,
    rfl⟩

/-- C9 names a code bug: for an apiKey naming an inherited
Object.prototype member, such as "toString", the bracket lookup
`API_KEY_TO_TENANT[apiKey]` in `server.js` yields the inherited
member.  That member is truthy, so the `!tenantId` default-tenant
guard does not fire and `getTenantIdFromApiKey` returns the member
instead of "tenant_default", although "toString" is none of the four
demo keys; a tracked event with that apiKey then gets the non-string
member stored as its row's tenant_id. -/
theorem c9_tenant_prototype_bug :
    getTenantIdFromApiKey (some "toString") = TenantValue.inherited "toString"
    ∧ getTenantIdFromApiKey (some "toString") ≠ TenantValue.str "tenant_default"
    ∧ "toString" ∉ ["demo-123", "test-456", "hackathon-789", "demo-default"]
    ∧ (handleTrack
        ⟨.arr [⟨none, none, none, none, none, none, none, none, none, none,
          none, none, none, none, none, none, none⟩], none, none, some "toString"⟩
        "t" (Except.ok ())).insertedRows
      = some [{ session_id := none, page_url := none, user_agent := none,
                viewport_width := none, viewport_height := none, event_type := none,
                timestamp := none, x_coordinate := none, y_coordinate := none,
                scroll_x := none, scroll_y := none, element_tag := none,
                element_id := none, element_class := none, element_text := none,
                page_title := none, referrer := none,
                tenant_id := TenantValue.inherited "toString", created_at := "t" }] := by
  refine ⟨by decide, by decide, by decide, by decide⟩

end Noculars

